import Mathlib

/-!
Verification model of the pubsub-uring repository.

The wire codec (`Proto.hpp` / the codec translation unit) is embedded as
functions over `List Nat`, one element per byte (values are kept below 256 by
the same `% 256` truncations the C++ casts perform).  The TCP broker
(`TcpBroker.cpp`) and the UDP broker (`UdpBroker.cpp`) are embedded as pure
transition functions on explicit broker-state structures; std::map containers
become association lists, `bitset<256>` becomes a natural-number bit mask, and
the io_uring send machinery becomes an explicit event-trace model.
-/

namespace Proto

def MAGIC : Nat := 0xCAFE
def MAX_PAYLOAD_SIZE : Nat := 1024 * 1024
def HEADER_SIZE : Nat := 7

/-- Opcode constants from `enum class OpCode : uint8_t`. -/
def OP_HANDSHAKE_PUB : Nat := 0x01
def OP_HANDSHAKE_SUB : Nat := 0x02
def OP_HANDSHAKE_ACK : Nat := 0x03
def OP_DISCONNECT : Nat := 0x04
def OP_PUBLISH : Nat := 0x10
def OP_SUBSCRIBE : Nat := 0x11
def OP_UNSUBSCRIBE : Nat := 0x12
def OP_MESSAGE : Nat := 0x13
def OP_PING : Nat := 0x20
def OP_PONG : Nat := 0x21
def OP_ERROR : Nat := 0xFF

/-- Little-endian serialization of a `uint16_t` (memcpy of 2 bytes). -/
def le16 (n : Nat) : List Nat := [n % 256, n / 256 % 256]

/-- Little-endian serialization of a `uint32_t` (memcpy of 4 bytes). -/
def le32 (n : Nat) : List Nat :=
  [n % 256, n / 256 % 256, n / 65536 % 256, n / 16777216 % 256]

/-- Little-endian serialization of a `uint64_t` (memcpy of 8 bytes). -/
def le64 (n : Nat) : List Nat :=
  [n % 256, n / 256 % 256, n / 65536 % 256, n / 16777216 % 256,
   n / 4294967296 % 256, n / 1099511627776 % 256,
   n / 281474976710656 % 256, n / 72057594037927936 % 256]

/-- Little-endian read of 2 bytes at the front of a buffer
(`memcpy(&header.magic, data.data(), 2)`).  Bytes past the end read as 0. -/
def rd16 (b : List Nat) : Nat := b.getD 0 0 + 256 * b.getD 1 0

/-- Little-endian read of 4 bytes at the front of a buffer. -/
def rd32 (b : List Nat) : Nat :=
  b.getD 0 0 + 256 * b.getD 1 0 + 65536 * b.getD 2 0 + 16777216 * b.getD 3 0

/-- The frame header recovered by `FrameHeader::parse`. -/
structure FrameHeader where
  magic : Nat
  opcode : Nat
  length : Nat
deriving DecidableEq, Repr

/-- `FrameHeader::parse`: fails on fewer than 7 bytes, a magic other than
0xCAFE, or a length above `MAX_PAYLOAD_SIZE`. -/
def FrameHeader.parse (data : List Nat) : Option FrameHeader :=
  if data.length < HEADER_SIZE then
    none
  else
    let header : FrameHeader :=
      { magic := rd16 data, opcode := data.getD 2 0, length := rd32 (data.drop 3) }
    if header.magic ≠ MAGIC then
      none
    else if header.length > MAX_PAYLOAD_SIZE then
      none
    else
      some header

/-- `FrameHeader::serialize`: 7 bytes, little-endian fields. -/
def FrameHeader.serialize (h : FrameHeader) : List Nat :=
  le16 h.magic ++ [h.opcode % 256] ++ le32 h.length

/-- `struct DecodedMessage`; the borrowed payload pointer is modelled as the
payload byte list itself. -/
structure DecodedMessage where
  opcode : Nat
  payloadLen : Nat
  payload : List Nat
deriving DecidableEq, Repr

/-- `MessageDecoder::ParseResult`. -/
structure ParseResult where
  needMoreData : Bool
  bytesConsumed : Nat
  message : Option DecodedMessage
deriving DecidableEq, Repr

namespace MessageDecoder

/-- `MessageDecoder::decode`. -/
def decode (data : List Nat) : ParseResult :=
  if data.length < HEADER_SIZE then
    { needMoreData := true, bytesConsumed := 0, message := none }
  else
    match FrameHeader.parse data with
    | none => { needMoreData := false, bytesConsumed := 0, message := none }
    | some header =>
      let totalSize := HEADER_SIZE + header.length
      if data.length < totalSize then
        { needMoreData := true, bytesConsumed := 0, message := none }
      else
        { needMoreData := false, bytesConsumed := totalSize,
          message := some { opcode := header.opcode, payloadLen := header.length,
                            payload := (data.drop HEADER_SIZE).take header.length } }

end MessageDecoder

namespace MessageEncoder

/-- `MessageEncoder::sizeHandshakePub` (`uint32_t` return type). -/
def sizeHandshakePub (clientId : List Nat) : Nat :=
  (HEADER_SIZE + 2 + clientId.length) % 2 ^ 32

/-- `MessageEncoder::sizeHandshakeSub`. -/
def sizeHandshakeSub (channels clientId : List Nat) : Nat :=
  (HEADER_SIZE + 1 + channels.length + 1 + clientId.length) % 2 ^ 32

/-- `MessageEncoder::sizeHandshakeAck`. -/
def sizeHandshakeAck : Nat := HEADER_SIZE + 9

/-- `MessageEncoder::sizePublish`. -/
def sizePublish (message : List Nat) : Nat :=
  (HEADER_SIZE + 1 + message.length) % 2 ^ 32

/-- `MessageEncoder::sizeMessage`. -/
def sizeMessage (message : List Nat) : Nat :=
  (HEADER_SIZE + 1 + 8 + message.length) % 2 ^ 32

/-- `MessageEncoder::sizeSubscribe`. -/
def sizeSubscribe : Nat := HEADER_SIZE + 1

/-- `MessageEncoder::sizeUnsubscribe`. -/
def sizeUnsubscribe : Nat := HEADER_SIZE + 1

/-- `MessageEncoder::sizeDisconnect`. -/
def sizeDisconnect : Nat := HEADER_SIZE

/-- `MessageEncoder::sizePing`. -/
def sizePing : Nat := HEADER_SIZE

/-- `MessageEncoder::sizePong`. -/
def sizePong : Nat := HEADER_SIZE

/-- `MessageEncoder::sizeError`. -/
def sizeError : Nat := HEADER_SIZE + 1

/-- `MessageEncoder::encodeHandshakePub`: header, then channel byte, then the
low byte of the client-id length, then the raw client-id bytes. -/
def encodeHandshakePub (channel : Nat) (clientId : List Nat) : List Nat :=
  (FrameHeader.serialize
      { magic := MAGIC, opcode := OP_HANDSHAKE_PUB, length := 2 + clientId.length })
    ++ [channel % 256, clientId.length % 256] ++ clientId

/-- `MessageEncoder::encodeHandshakeSub`. -/
def encodeHandshakeSub (channels clientId : List Nat) : List Nat :=
  (FrameHeader.serialize
      { magic := MAGIC, opcode := OP_HANDSHAKE_SUB,
        length := 1 + channels.length + 1 + clientId.length })
    ++ [channels.length % 256] ++ channels ++ [clientId.length % 256] ++ clientId

/-- `MessageEncoder::encodeHandshakeAck`. -/
def encodeHandshakeAck (status sessionId : Nat) : List Nat :=
  (FrameHeader.serialize { magic := MAGIC, opcode := OP_HANDSHAKE_ACK, length := 9 })
    ++ [status % 256] ++ le64 sessionId

/-- `MessageEncoder::encodePublish`. -/
def encodePublish (channel : Nat) (message : List Nat) : List Nat :=
  (FrameHeader.serialize
      { magic := MAGIC, opcode := OP_PUBLISH, length := 1 + message.length })
    ++ [channel % 256] ++ message

/-- `MessageEncoder::encodeMessage`. -/
def encodeMessage (channel timestamp : Nat) (message : List Nat) : List Nat :=
  (FrameHeader.serialize
      { magic := MAGIC, opcode := OP_MESSAGE, length := 1 + 8 + message.length })
    ++ [channel % 256] ++ le64 timestamp ++ message

/-- `MessageEncoder::encodeSubscribe`. -/
def encodeSubscribe (channel : Nat) : List Nat :=
  (FrameHeader.serialize { magic := MAGIC, opcode := OP_SUBSCRIBE, length := 1 })
    ++ [channel % 256]

/-- `MessageEncoder::encodeUnsubscribe`. -/
def encodeUnsubscribe (channel : Nat) : List Nat :=
  (FrameHeader.serialize { magic := MAGIC, opcode := OP_UNSUBSCRIBE, length := 1 })
    ++ [channel % 256]

/-- `MessageEncoder::encodeDisconnect`. -/
def encodeDisconnect : List Nat :=
  FrameHeader.serialize { magic := MAGIC, opcode := OP_DISCONNECT, length := 0 }

/-- `MessageEncoder::encodePing`. -/
def encodePing : List Nat :=
  FrameHeader.serialize { magic := MAGIC, opcode := OP_PING, length := 0 }

/-- `MessageEncoder::encodePong`. -/
def encodePong : List Nat :=
  FrameHeader.serialize { magic := MAGIC, opcode := OP_PONG, length := 0 }

/-- `MessageEncoder::encodeError`. -/
def encodeError (errorCode : Nat) : List Nat :=
  (FrameHeader.serialize { magic := MAGIC, opcode := OP_ERROR, length := 1 })
    ++ [errorCode % 256]

end MessageEncoder

/-- A valid frame of the protocol: one constructor per encoder entry point,
holding that encoder's argument tuple. -/
inductive Frame where
  | handshakePub (channel : Nat) (clientId : List Nat)
  | handshakeSub (channels clientId : List Nat)
  | handshakeAck (status sessionId : Nat)
  | publish (channel : Nat) (message : List Nat)
  | message (channel timestamp : Nat) (message : List Nat)
  | subscribe (channel : Nat)
  | unsubscribe (channel : Nat)
  | disconnect
  | ping
  | pong
  | error (errorCode : Nat)
deriving DecidableEq, Repr

namespace Frame

/-- The opcode the encoder writes for this frame. -/
def opcode : Frame → Nat
  | .handshakePub _ _ => OP_HANDSHAKE_PUB
  | .handshakeSub _ _ => OP_HANDSHAKE_SUB
  | .handshakeAck _ _ => OP_HANDSHAKE_ACK
  | .publish _ _ => OP_PUBLISH
  | .message _ _ _ => OP_MESSAGE
  | .subscribe _ => OP_SUBSCRIBE
  | .unsubscribe _ => OP_UNSUBSCRIBE
  | .disconnect => OP_DISCONNECT
  | .ping => OP_PING
  | .pong => OP_PONG
  | .error _ => OP_ERROR

/-- The payload bytes the encoder writes after the 7-byte header. -/
def payload : Frame → List Nat
  | .handshakePub channel clientId => [channel % 256, clientId.length % 256] ++ clientId
  | .handshakeSub channels clientId =>
      [channels.length % 256] ++ channels ++ [clientId.length % 256] ++ clientId
  | .handshakeAck status sessionId => [status % 256] ++ le64 sessionId
  | .publish channel msg => [channel % 256] ++ msg
  | .message channel timestamp msg => [channel % 256] ++ le64 timestamp ++ msg
  | .subscribe channel => [channel % 256]
  | .unsubscribe channel => [channel % 256]
  | .disconnect => []
  | .ping => []
  | .pong => []
  | .error errorCode => [errorCode % 256]

/-- Dispatch to the `MessageEncoder::encode*` entry point of this frame. -/
def encode : Frame → List Nat
  | .handshakePub channel clientId => MessageEncoder.encodeHandshakePub channel clientId
  | .handshakeSub channels clientId => MessageEncoder.encodeHandshakeSub channels clientId
  | .handshakeAck status sessionId => MessageEncoder.encodeHandshakeAck status sessionId
  | .publish channel msg => MessageEncoder.encodePublish channel msg
  | .message channel timestamp msg =>
      MessageEncoder.encodeMessage channel timestamp msg
  | .subscribe channel => MessageEncoder.encodeSubscribe channel
  | .unsubscribe channel => MessageEncoder.encodeUnsubscribe channel
  | .disconnect => MessageEncoder.encodeDisconnect
  | .ping => MessageEncoder.encodePing
  | .pong => MessageEncoder.encodePong
  | .error errorCode => MessageEncoder.encodeError errorCode

/-- Dispatch to the `MessageEncoder::size*` entry point of this frame. -/
def sizeOf : Frame → Nat
  | .handshakePub _ clientId => MessageEncoder.sizeHandshakePub clientId
  | .handshakeSub channels clientId => MessageEncoder.sizeHandshakeSub channels clientId
  | .handshakeAck _ _ => MessageEncoder.sizeHandshakeAck
  | .publish _ msg => MessageEncoder.sizePublish msg
  | .message _ _ msg => MessageEncoder.sizeMessage msg
  | .subscribe _ => MessageEncoder.sizeSubscribe
  | .unsubscribe _ => MessageEncoder.sizeUnsubscribe
  | .disconnect => MessageEncoder.sizeDisconnect
  | .ping => MessageEncoder.sizePing
  | .pong => MessageEncoder.sizePong
  | .error _ => MessageEncoder.sizeError

/-- A frame is valid when its payload fits the protocol's 1 MiB payload bound. -/
def wf (f : Frame) : Prop := f.payload.length ≤ MAX_PAYLOAD_SIZE

instance : DecidablePred wf := fun f => by unfold wf; infer_instance

/-- The decoded view a successful decode of this frame must produce. -/
def decoded (f : Frame) : DecodedMessage :=
  { opcode := f.opcode, payloadLen := f.payload.length, payload := f.payload }

end Frame

end Proto

/-! ## Association-list helpers (std::map / fixed array embeddings) -/

/-- Lookup in an association list (`map::find`). -/
def assocGet {α β : Type} [DecidableEq α] (l : List (α × β)) (k : α) : Option β :=
  (l.find? (fun p => decide (p.1 = k))).map (fun p => p.2)

/-- Pointwise update of the value stored at an existing key. -/
def assocUpdate {α β : Type} [DecidableEq α] (l : List (α × β)) (k : α) (f : β → β) :
    List (α × β) :=
  l.map (fun p => if p.1 = k then (p.1, f p.2) else p)

/-- Store a value at a key, appending the binding when the key is absent
(total-array semantics for `array<vector<..>, 256>`). -/
def assocSet {α β : Type} [DecidableEq α] (l : List (α × β)) (k : α) (v : β) :
    List (α × β) :=
  if (assocGet l k).isSome then assocUpdate l k (fun _ => v) else l ++ [(k, v)]

/-- Set bit `i` of a `bitset<256>`-style mask (`bitset::set`). -/
def setBit (m i : Nat) : Nat := m ||| 1 <<< i

namespace TcpBroker

open Proto

/-- `enum class ClientState`. -/
inductive ClientState where
  | HANDSHAKE
  | READY
  | CLOSING
deriving DecidableEq, Repr

/-- `enum class ClientType`. -/
inductive ClientType where
  | UNKNOWN
  | PUBLISHER
  | SUBSCRIBER
deriving DecidableEq, Repr

def MAX_SEND_QUEUE : Nat := 256

/-- `struct Client` of the TCP broker.  The `fd` lives as the key of the
broker's client map; `sendBuffers` (a staging copy of the in-flight head
frame) is covered by the dedicated send-trace model below. -/
structure Client where
  type : ClientType
  state : ClientState
  channels : Nat
  recvBuffer : List Nat
  sendQueue : List (List Nat)
  sendInProgress : Bool
  clientId : List Nat
deriving DecidableEq, Repr

/-- A fresh client as built by `Client(socket_t)`. -/
def Client.fresh : Client :=
  { type := .UNKNOWN, state := .HANDSHAKE, channels := 0, recvBuffer := [],
    sendQueue := [], sendInProgress := false, clientId := [] }

/-- The broker state that the routing/handshake logic touches. -/
structure Broker where
  clients : List (Nat × Client)
  channelSubscribers : List (Nat × List Nat)
  sessionIdCounter : Nat
deriving DecidableEq, Repr

/-- `Broker::getClient`. -/
def getClient (b : Broker) (fd : Nat) : Option Client := assocGet b.clients fd

/-- Replace the record of client `fd`. -/
def updateClient (b : Broker) (fd : Nat) (f : Client → Client) : Broker :=
  { b with clients := assocUpdate b.clients fd f }

/-- `channelSubscribers[channel]` (absent key = empty list). -/
def subsOf (b : Broker) (channel : Nat) : List Nat :=
  (assocGet b.channelSubscribers channel).getD []

/-- `Broker::subscribeToChannel`: set the mask bit and push the fd onto the
channel's subscriber list unless already present. -/
def subscribeToChannel (b : Broker) (fd channel : Nat) : Broker :=
  match getClient b fd with
  | none => b
  | some _ =>
    let b1 := updateClient b fd (fun c => { c with channels := setBit c.channels channel })
    let subs := subsOf b1 channel
    if fd ∈ subs then b1
    else { b1 with channelSubscribers := assocSet b1.channelSubscribers channel (subs ++ [fd]) }

/-- `Broker::enqueueMessage`: only READY clients are enqueued to, a full
queue (≥ 256) drops the new frame, and `submitSend` raises the
send-in-progress flag when no send was outstanding. -/
def enqueueMessage (b : Broker) (fd : Nat) (msg : List Nat) : Broker :=
  match getClient b fd with
  | none => b
  | some c =>
    if c.state ≠ ClientState.READY then b
    else if MAX_SEND_QUEUE ≤ c.sendQueue.length then b
    else
      let c1 := { c with sendQueue := c.sendQueue ++ [msg] }
      let c2 := if c1.sendInProgress then c1 else { c1 with sendInProgress := true }
      updateClient b fd (fun _ => c2)

/-- `Broker::routeMessage`: encode one MESSAGE frame and enqueue a copy to
every subscriber of the channel except the sender. -/
def routeMessage (b : Broker) (channel : Nat) (message : List Nat) (senderFd ts : Nat) :
    Broker :=
  let msgBuffer := MessageEncoder.encodeMessage channel ts message
  (subsOf b channel).foldl
    (fun acc subFd => if subFd = senderFd then acc else enqueueMessage acc subFd msgBuffer)
    b

/-- `Broker::parseHandshake`.  Returns the updated broker and the boolean the
C++ function returns (`true` exactly when a handshake was completed and its
bytes were consumed). -/
def parseHandshake (b : Broker) (fd : Nat) : Broker × Bool :=
  match getClient b fd with
  | none => (b, false)
  | some c =>
    let r := MessageDecoder.decode c.recvBuffer
    if r.needMoreData then (b, false)
    else
      match r.message with
      | none => (updateClient b fd (fun c0 => { c0 with state := .CLOSING }), false)
      | some m =>
        if m.opcode = OP_HANDSHAKE_PUB then
          if 2 ≤ m.payloadLen then
            let channel := m.payload.getD 0 0 % 256
            let clientIdLen := m.payload.getD 1 0 % 256
            if 2 + clientIdLen ≤ m.payloadLen then
              let b1 := updateClient b fd (fun c0 =>
                { c0 with clientId := (m.payload.drop 2).take clientIdLen,
                          type := .PUBLISHER, state := .READY,
                          channels := setBit c0.channels channel })
              let b2 := enqueueMessage b1 fd
                (MessageEncoder.encodeHandshakeAck 0 b.sessionIdCounter)
              let b3 := { b2 with sessionIdCounter := b.sessionIdCounter + 1 }
              let b4 := updateClient b3 fd (fun c0 =>
                { c0 with recvBuffer := c0.recvBuffer.drop r.bytesConsumed })
              (b4, true)
            else (b, false)
          else (b, false)
        else if m.opcode = OP_HANDSHAKE_SUB then
          if 2 ≤ m.payloadLen then
            let channelCount := m.payload.getD 0 0 % 256
            if 1 + channelCount + 1 ≤ m.payloadLen then
              let b1 := updateClient b fd (fun c0 =>
                { c0 with type := .SUBSCRIBER, state := .READY })
              let chans := (List.range channelCount).map
                (fun i => m.payload.getD (1 + i) 0 % 256)
              let b2 := chans.foldl (fun acc ch => subscribeToChannel acc fd ch) b1
              let clientIdLen := m.payload.getD (1 + channelCount) 0 % 256
              let b3 :=
                if 1 + channelCount + 1 + clientIdLen ≤ m.payloadLen then
                  updateClient b2 fd (fun c0 =>
                    { c0 with clientId := (m.payload.drop (1 + channelCount + 1)).take clientIdLen })
                else b2
              let b4 := enqueueMessage b3 fd
                (MessageEncoder.encodeHandshakeAck 0 b.sessionIdCounter)
              let b5 := { b4 with sessionIdCounter := b.sessionIdCounter + 1 }
              let b6 := updateClient b5 fd (fun c0 =>
                { c0 with recvBuffer := c0.recvBuffer.drop r.bytesConsumed })
              (b6, true)
            else (b, false)
          else (b, false)
        else (b, false)

/-- One pass of the `while (true)` drain loop of `Broker::processClientBuffer`,
recursing on explicit fuel.  Every `continue` of the C++ loop consumes at
least 7 buffered bytes, so `recvBuffer.length + 1` fuel (supplied by
`processClientBuffer`) never runs out. -/
def processClientBufferGo (ts : Nat) : Nat → Broker → Nat → Broker
  | 0, b, _ => b
  | fuel + 1, b, fd =>
    match getClient b fd with
    | none => b
    | some c =>
      if c.state = ClientState.HANDSHAKE then
        let pr := parseHandshake b fd
        if pr.2 then processClientBufferGo ts fuel pr.1 fd
        else
          match getClient pr.1 fd with
          | none => pr.1
          | some c1 =>
            if 1024 < c1.recvBuffer.length then
              updateClient pr.1 fd (fun c0 => { c0 with state := .CLOSING })
            else pr.1
      else
        let r := MessageDecoder.decode c.recvBuffer
        if r.needMoreData then
          if MAX_PAYLOAD_SIZE + HEADER_SIZE < c.recvBuffer.length then
            updateClient b fd (fun c0 => { c0 with state := .CLOSING })
          else b
        else
          match r.message with
          | none => updateClient b fd (fun c0 => { c0 with state := .CLOSING })
          | some m =>
            let b1 :=
              if m.opcode = OP_PUBLISH then
                if c.type = ClientType.PUBLISHER ∧ 1 ≤ m.payloadLen then
                  routeMessage b (m.payload.getD 0 0 % 256) (m.payload.drop 1) fd ts
                else b
              else if m.opcode = OP_DISCONNECT then
                updateClient b fd (fun c0 => { c0 with state := .CLOSING })
              else b
            let b2 := updateClient b1 fd (fun c0 =>
              { c0 with recvBuffer := c0.recvBuffer.drop r.bytesConsumed })
            processClientBufferGo ts fuel b2 fd

/-- `Broker::processClientBuffer` (the wall-clock timestamp that
`routeMessage` reads is passed in as `ts`). -/
def processClientBuffer (b : Broker) (fd ts : Nat) : Broker :=
  match getClient b fd with
  | none => b
  | some c => processClientBufferGo ts (c.recvBuffer.length + 1) b fd

/-- `Broker::removeClient`: prune subscriber lists (for subscribers) and erase
the record. -/
def removeClient (b : Broker) (fd : Nat) : Broker :=
  match getClient b fd with
  | none => b
  | some c =>
    let subs :=
      if c.type = ClientType.SUBSCRIBER then
        b.channelSubscribers.map (fun p =>
          if Nat.testBit c.channels p.1 then (p.1, p.2.filter (fun x => x ≠ fd)) else p)
      else b.channelSubscribers
    { clients := b.clients.filter (fun p => ¬ p.1 = fd),
      channelSubscribers := subs,
      sessionIdCounter := b.sessionIdCounter }

/-- `Broker::handleRecv` for a completion with positive result: append the
received bytes, drain the buffer, then either keep the client (a further
RECV is submitted) or — when it is CLOSING — remove it. -/
def handleRecv (b : Broker) (fd : Nat) (data : List Nat) (ts : Nat) : Broker :=
  match getClient b fd with
  | none => b
  | some _ =>
    let b1 := updateClient b fd (fun c => { c with recvBuffer := c.recvBuffer ++ data })
    let b2 := processClientBuffer b1 fd ts
    match getClient b2 fd with
    | none => b2
    | some c2 => if c2.state = ClientState.CLOSING then removeClient b2 fd else b2

end TcpBroker

namespace UdpBroker

open Proto

/-- A peer address: (s_addr, sin_port), the two fields `SockAddrCmp` compares. -/
abbrev Addr : Type := Nat × Nat

/-- `SockAddrCmp`: address first, then port. -/
def addrLt (a b : Addr) : Bool :=
  if a.1 ≠ b.1 then a.1 < b.1 else a.2 < b.2

/-- `enum class ClientType` of the UDP broker. -/
inductive ClientType where
  | UNKNOWN
  | PUBLISHER
  | SUBSCRIBER
deriving DecidableEq, Repr

def MAX_SEND_QUEUE : Nat := 256

/-- `struct Client` of the UDP broker (no connection state machine). -/
structure Client where
  type : ClientType
  channels : Nat
  sendQueue : List (List Nat)
  clientId : List Nat
deriving DecidableEq, Repr

def Client.fresh : Client :=
  { type := .UNKNOWN, channels := 0, sendQueue := [], clientId := [] }

/-- The UDP broker state: an ordered client map, the per-channel subscriber
lists, the session counter, and the single process-wide in-flight send
(`sendInProgress` / `sendBuffer` / `sendAddr`). -/
structure Broker where
  clients : List (Addr × Client)
  channelSubscribers : List (Nat × List Addr)
  sessionIdCounter : Nat
  sendInProgress : Bool
  sendBuffer : List Nat
  sendAddr : Addr
deriving DecidableEq, Repr

/-- `Broker::getClient`. -/
def getClient (b : Broker) (addr : Addr) : Option Client := assocGet b.clients addr

/-- Insert a binding at its `SockAddrCmp`-sorted position (std::map::emplace). -/
def insertSorted (l : List (Addr × Client)) (addr : Addr) (c : Client) :
    List (Addr × Client) :=
  match l with
  | [] => [(addr, c)]
  | p :: rest =>
    if addrLt addr p.1 then (addr, c) :: p :: rest
    else p :: insertSorted rest addr c

/-- `Broker::getOrCreateClient` (returning the updated map). -/
def getOrCreateClient (b : Broker) (addr : Addr) : Broker :=
  match getClient b addr with
  | some _ => b
  | none => { b with clients := insertSorted b.clients addr Client.fresh }

/-- Replace the record of the client at `addr`. -/
def updateClient (b : Broker) (addr : Addr) (f : Client → Client) : Broker :=
  { b with clients := assocUpdate b.clients addr f }

/-- `channelSubscribers[channel]`. -/
def subsOf (b : Broker) (channel : Nat) : List Addr :=
  (assocGet b.channelSubscribers channel).getD []

/-- `Broker::subscribeToChannel` (the duplicate check compares both address
fields, i.e. key equality). -/
def subscribeToChannel (b : Broker) (addr : Addr) (channel : Nat) : Broker :=
  match getClient b addr with
  | none => b
  | some _ =>
    let b1 := updateClient b addr (fun c => { c with channels := setBit c.channels channel })
    let subs := subsOf b1 channel
    if addr ∈ subs then b1
    else { b1 with channelSubscribers := assocSet b1.channelSubscribers channel (subs ++ [addr]) }

/-- `Broker::submitSend`: stage the head frame of the client's queue in the
shared send buffer and raise the process-wide flag.  Queues are untouched. -/
def submitSend (b : Broker) (addr : Addr) : Broker :=
  match getClient b addr with
  | none => b
  | some c =>
    if c.sendQueue = [] then b
    else
      { b with sendInProgress := true, sendBuffer := c.sendQueue.headD [],
               sendAddr := addr }

/-- `Broker::processSendQueue`: submit for the first client (in map order)
with a pending message. -/
def processSendQueue (b : Broker) : Broker :=
  match b.clients.find? (fun p => ¬ p.2.sendQueue.isEmpty) with
  | none => b
  | some p => submitSend b p.1

/-- `Broker::enqueueMessage` (UDP): bounded push, then kick the send queue if
no send is outstanding. -/
def enqueueMessage (b : Broker) (addr : Addr) (msg : List Nat) : Broker :=
  match getClient b addr with
  | none => b
  | some c =>
    if MAX_SEND_QUEUE ≤ c.sendQueue.length then b
    else
      let b1 := updateClient b addr (fun c0 => { c0 with sendQueue := c0.sendQueue ++ [msg] })
      if b1.sendInProgress then b1 else processSendQueue b1

/-- `Broker::routeMessage` (UDP): identical fan-out rule to the TCP broker,
with the echo check comparing both address fields. -/
def routeMessage (b : Broker) (channel : Nat) (message : List Nat) (senderAddr : Addr)
    (ts : Nat) : Broker :=
  let msgBuffer := MessageEncoder.encodeMessage channel ts message
  (subsOf b channel).foldl
    (fun acc subAddr => if subAddr = senderAddr then acc else enqueueMessage acc subAddr msgBuffer)
    b

/-- `Broker::handleHandshake`. -/
def handleHandshake (b : Broker) (addr : Addr) (m : DecodedMessage) : Broker :=
  let b0 := getOrCreateClient b addr
  if m.opcode = OP_HANDSHAKE_PUB then
    if 2 ≤ m.payloadLen then
      let channel := m.payload.getD 0 0 % 256
      let clientIdLen := m.payload.getD 1 0 % 256
      if 2 + clientIdLen ≤ m.payloadLen then
        let b1 := updateClient b0 addr (fun c0 =>
          { c0 with clientId := (m.payload.drop 2).take clientIdLen,
                    type := .PUBLISHER, channels := setBit c0.channels channel })
        let b2 := enqueueMessage b1 addr
          (MessageEncoder.encodeHandshakeAck 0 b0.sessionIdCounter)
        { b2 with sessionIdCounter := b0.sessionIdCounter + 1 }
      else b0
    else b0
  else if m.opcode = OP_HANDSHAKE_SUB then
    if 2 ≤ m.payloadLen then
      let channelCount := m.payload.getD 0 0 % 256
      if 1 + channelCount + 1 ≤ m.payloadLen then
        let b1 := updateClient b0 addr (fun c0 => { c0 with type := .SUBSCRIBER })
        let chans := (List.range channelCount).map (fun i => m.payload.getD (1 + i) 0 % 256)
        let b2 := chans.foldl (fun acc ch => subscribeToChannel acc addr ch) b1
        let clientIdLen := m.payload.getD (1 + channelCount) 0 % 256
        let b3 :=
          if 1 + channelCount + 1 + clientIdLen ≤ m.payloadLen then
            updateClient b2 addr (fun c0 =>
              { c0 with clientId := (m.payload.drop (1 + channelCount + 1)).take clientIdLen })
          else b2
        let b4 := enqueueMessage b3 addr
          (MessageEncoder.encodeHandshakeAck 0 b0.sessionIdCounter)
        { b4 with sessionIdCounter := b0.sessionIdCounter + 1 }
      else b0
    else b0
  else b0

/-- `Broker::processMessage`: decode one datagram and dispatch on the opcode.
Incomplete or invalid datagrams are dropped; PUBLISH routes only for an
existing client of type PUBLISHER; DISCONNECT and unknown opcodes only log. -/
def processMessage (b : Broker) (addr : Addr) (data : List Nat) (ts : Nat) : Broker :=
  let r := MessageDecoder.decode data
  if r.needMoreData then b
  else
    match r.message with
    | none => b
    | some m =>
      if m.opcode = OP_HANDSHAKE_PUB ∨ m.opcode = OP_HANDSHAKE_SUB then
        handleHandshake b addr m
      else if m.opcode = OP_PUBLISH then
        match getClient b addr with
        | none => b
        | some c =>
          if c.type = ClientType.PUBLISHER ∧ 1 ≤ m.payloadLen then
            routeMessage b (m.payload.getD 0 0 % 256) (m.payload.drop 1) addr ts
          else b
      else b

/-- The pop loop of `Broker::handleSend`: walk the client map in order and
pop the front of the first non-empty queue whose front equals the sent
buffer, then stop. -/
def popFirstMatching (l : List (Addr × Client)) (buf : List Nat) : List (Addr × Client) :=
  match l with
  | [] => []
  | p :: rest =>
    if ¬ p.2.sendQueue.isEmpty ∧ buf = p.2.sendQueue.headD [] then
      (p.1, { p.2 with sendQueue := p.2.sendQueue.tail }) :: rest
    else p :: popFirstMatching rest buf

/-- `Broker::handleSend`: pop the sent message from the first client (in map
order) whose queue front equals the shared send buffer, clear the flag, and
submit the next pending send. -/
def handleSend (b : Broker) : Broker :=
  let b1 := { b with clients := popFirstMatching b.clients b.sendBuffer,
                     sendBuffer := [], sendInProgress := false }
  processSendQueue b1

end UdpBroker

/-! ## Send-order trace models

The FIFO-delivery claim is about sequences of asynchronous SEND completions,
so the send machinery of each broker is replayed as a transition system over
event traces.  The state mirrors exactly the queue / flag / staging-buffer
manipulations of `enqueueMessage`, `submitSend`, `processSendQueue` and
`handleSend`, extended with history variables (`pushed`, `sent`, `accepted`,
`delivered`) that record what happened but never influence a transition. -/

namespace TcpSendModel

/-- The send machinery of one TCP client: its bounded FIFO `sendQueue`, the
`sendInProgress` flag, and `sendBuffers[fd]` (the frame staged by
`submitSend`, whose bytes the kernel transmits).  `pushed` records every
frame accepted into the queue, `sent` every frame whose SEND completed, in
order. -/
structure St where
  queue : List (List Nat)
  sendInProgress : Bool
  sendBuf : List Nat
  pushed : List (List Nat)
  sent : List (List Nat)
deriving DecidableEq, Repr

def init : St :=
  { queue := [], sendInProgress := false, sendBuf := [], pushed := [], sent := [] }

/-- `Broker::enqueueMessage` for this client (drop when ≥ 256 pending), plus
the `submitSend` it performs when no send is in flight. -/
def enq (s : St) (msg : List Nat) : St :=
  if 256 ≤ s.queue.length then s
  else
    let s1 := { s with queue := s.queue ++ [msg], pushed := s.pushed ++ [msg] }
    if s1.sendInProgress then s1
    else { s1 with sendInProgress := true, sendBuf := s1.queue.headD [] }

/-- `Broker::handleSend` for a completed send to this client: pop the head,
clear the flag, and submit the next pending frame if any. -/
def complete (s : St) : St :=
  if ¬ s.sendInProgress then s
  else
    let s1 := { s with queue := s.queue.tail, sent := s.sent ++ [s.sendBuf],
                       sendInProgress := false }
    if s1.queue.isEmpty then s1
    else { s1 with sendInProgress := true, sendBuf := s1.queue.headD [] }

/-- Trace events: a frame enqueued for this client, or a SEND completion. -/
inductive Ev where
  | enq (msg : List Nat)
  | complete
deriving DecidableEq, Repr

def step (s : St) : Ev → St
  | .enq msg => enq s msg
  | .complete => complete s

def run (evs : List Ev) (s : St) : St := evs.foldl step s

end TcpSendModel

namespace UdpSendModel

open UdpBroker (Addr addrLt)

/-- The send state of one UDP client, with the live queue represented through
history variables: `accepted` records every frame ever pushed, `popped` how
many have been popped off the front, so the live `sendQueue` is
`accepted.drop popped`.  `delivered` records, for each `submitSend` that
staged this client's head frame, the index (into `accepted`) of that frame
together with the staged frame itself. -/
structure Cl where
  accepted : List (List Nat)
  popped : Nat
  delivered : List (Nat × List Nat)
deriving DecidableEq, Repr

/-- The live `sendQueue` of the client. -/
def Cl.queue (c : Cl) : List (List Nat) := c.accepted.drop c.popped

/-- The process-wide send state of the UDP broker: the client map plus the
single shared in-flight send (`sendInProgress` / `sendBuffer`). -/
structure St where
  clients : List (Addr × Cl)
  sendInProgress : Bool
  sendBuf : List Nat
deriving DecidableEq, Repr

def init (addrs : List Addr) : St :=
  { clients := addrs.map (fun a => (a, { accepted := [], popped := 0, delivered := [] })),
    sendInProgress := false, sendBuf := [] }

/-- `Broker::submitSend`: stage the client's head frame in the shared buffer
and raise the flag; the staged frame's index is recorded in `delivered`. -/
def submitSend (s : St) (addr : Addr) : St :=
  match assocGet s.clients addr with
  | none => s
  | some c =>
    if c.queue = [] then s
    else
      { s with sendInProgress := true, sendBuf := c.queue.headD [],
               clients := (assocUpdate s.clients addr
                 (fun c0 => { c0 with delivered := c0.delivered ++ [(c0.popped, c0.queue.headD [])] })) }

/-- `Broker::processSendQueue`: submit for the first client in map order with
a pending frame. -/
def processSendQueue (s : St) : St :=
  match s.clients.find? (fun p => ¬ p.2.queue.isEmpty) with
  | none => s
  | some p => submitSend s p.1

/-- `Broker::enqueueMessage` (UDP): bounded push onto the client's queue,
then kick the send queue when no send is outstanding. -/
def enq (s : St) (addr : Addr) (msg : List Nat) : St :=
  match assocGet s.clients addr with
  | none => s
  | some c =>
    if 256 ≤ c.queue.length then s
    else
      let s1 := { s with clients := (assocUpdate s.clients addr
                    (fun c0 => { c0 with accepted := c0.accepted ++ [msg] })) }
      if s1.sendInProgress then s1 else processSendQueue s1

/-- The pop loop of the UDP `Broker::handleSend`: pop the front of the first
client (in map order) whose non-empty queue starts with the sent bytes. -/
def popFirstMatching (l : List (Addr × Cl)) (buf : List Nat) : List (Addr × Cl) :=
  match l with
  | [] => []
  | p :: rest =>
    if ¬ p.2.queue.isEmpty ∧ buf = p.2.queue.headD [] then
      (p.1, { p.2 with popped := p.2.popped + 1 }) :: rest
    else p :: popFirstMatching rest buf

/-- `Broker::handleSend` (UDP): pop the first matching queue, clear the
shared buffer and flag, then submit the next pending send. -/
def complete (s : St) : St :=
  let s1 := { s with clients := popFirstMatching s.clients s.sendBuf,
                     sendBuf := [], sendInProgress := false }
  processSendQueue s1

/-- Trace events: a frame enqueued for some peer, or a SENDMSG completion. -/
inductive Ev where
  | enq (addr : Addr) (msg : List Nat)
  | complete
deriving DecidableEq, Repr

def step (s : St) : Ev → St
  | .enq addr msg => enq s addr msg
  | .complete => complete s

def run (evs : List Ev) (s : St) : St := evs.foldl step s

end UdpSendModel

namespace Proto

/-- The magic field of a raw byte sequence, as `FrameHeader::parse` reads it. -/
def magicField (b : List Nat) : Nat := rd16 b

/-- The length field of a raw byte sequence, as `FrameHeader::parse` reads it. -/
def lengthField (b : List Nat) : Nat := rd32 (b.drop 3)

end Proto

namespace TcpBroker

open Proto

/-- The success condition of the HANDSHAKE_PUB arm of `parseHandshake`. -/
def pubHandshakeOk (m : DecodedMessage) : Prop :=
  m.opcode = OP_HANDSHAKE_PUB ∧ 2 ≤ m.payloadLen ∧
    2 + m.payload.getD 1 0 % 256 ≤ m.payloadLen

/-- The success condition of the HANDSHAKE_SUB arm of `parseHandshake` (note:
only the channel count has to fit, not the client-id length). -/
def subHandshakeOk (m : DecodedMessage) : Prop :=
  m.opcode = OP_HANDSHAKE_SUB ∧ 2 ≤ m.payloadLen ∧
    1 + m.payload.getD 0 0 % 256 + 1 ≤ m.payloadLen

instance : DecidablePred pubHandshakeOk := fun m => by unfold pubHandshakeOk; infer_instance

instance : DecidablePred subHandshakeOk := fun m => by unfold subHandshakeOk; infer_instance

end TcpBroker

namespace TcpSendModel

/-- Invariant of the per-client TCP send machinery: completed sends followed
by the pending queue are exactly the accepted pushes, and an in-flight send
stages the queue head. -/
def TInv (s : St) : Prop :=
  s.sent ++ s.queue = s.pushed ∧
    (s.sendInProgress = true → s.queue ≠ [] ∧ s.sendBuf = s.queue.headD [])

end TcpSendModel

namespace UdpSendModel

/-- Per-client invariant of the UDP send machinery (with history variables):
pops never exceed pushes; each recorded delivery carries the index of the
frame staged for it and the frame found at that index; delivery indices are
nondecreasing. -/
def UCInv (c : Cl) : Prop :=
  c.popped ≤ c.accepted.length ∧
    (∀ p ∈ c.delivered, p.1 ≤ c.popped ∧ c.accepted.get? p.1 = some p.2) ∧
    c.delivered.Pairwise (fun p q => p.1 ≤ q.1)

/-- Global invariant: distinct peer keys, and every client record invariant. -/
def UInv (s : St) : Prop :=
  (s.clients.map Prod.fst).Nodup ∧ ∀ p ∈ s.clients, UCInv p.2

end UdpSendModel

/-- The MESSAGE frame two same-millisecond publishes of payload `[7]` on
channel 5 both encode to (UDP `routeMessage` stamps the wall clock in
milliseconds, so distinct publishes can yield byte-identical frames). -/
def c2X : List Nat := Proto.MessageEncoder.encodeMessage 5 1000 [7]

/-- The MESSAGE frame of a later publish (payload `[8]`, next millisecond). -/
def c2Z : List Nat := Proto.MessageEncoder.encodeMessage 5 1001 [8]

/-- A UDP send-machinery trace with two subscribers `(1,1)` and `(2,2)` (both
on channel 5, enqueued in map order on every publish, exactly as
`routeMessage` does): publish 1 and publish 2 encode to the same bytes `c2X`,
publish 3 to `c2Z`; each `complete` is one SENDMSG CQE. -/
def c2Evs : List UdpSendModel.Ev :=
  [ .enq (1,1) c2X, .enq (2,2) c2X, .complete,
    .enq (1,1) c2X, .enq (2,2) c2X, .complete,
    .complete, .complete,
    .enq (1,1) c2Z, .enq (2,2) c2Z, .complete, .complete ]

namespace Proto

theorem rd16_cons (a b : Nat) (l : List Nat) : rd16 (a :: b :: l) = a + 256 * b := rfl

theorem rd32_cons (a b c d : Nat) (l : List Nat) :
    rd32 (a :: b :: c :: d :: l) = a + 256 * b + 65536 * c + 16777216 * d := rfl

theorem decode_serialize_frame (op len : Nat) (payload rest : List Nat)
    (hlen : payload.length = len) (hmax : len ≤ MAX_PAYLOAD_SIZE) (hop : op < 256) :
    MessageDecoder.decode
      ((FrameHeader.serialize { magic := MAGIC, opcode := op, length := len })
        ++ payload ++ rest)
      = { needMoreData := false, bytesConsumed := HEADER_SIZE + len,
          message := some { opcode := op, payloadLen := len, payload := payload } } := by
  subst hlen
  have hMP : MAX_PAYLOAD_SIZE = 1048576 := rfl
  have hmod : op % 256 = op := Nat.mod_eq_of_lt hop
  have hr : (payload.length % 256) + 256 * (payload.length / 256 % 256)
      + 65536 * (payload.length / 65536 % 256)
      + 16777216 * (payload.length / 16777216 % 256) = payload.length := by
    omega
  have hdata :
      (FrameHeader.serialize { magic := MAGIC, opcode := op, length := payload.length })
          ++ payload ++ rest
        = 254 :: 202 :: op :: (payload.length % 256) :: (payload.length / 256 % 256)
            :: (payload.length / 65536 % 256) :: (payload.length / 16777216 % 256)
            :: (payload ++ rest) := by
    simp only [FrameHeader.serialize, le16, le32, hmod]
    simp [List.append_assoc]
    exact ⟨rfl, rfl⟩
  rw [hdata]
  have hdrop3 : List.drop 3
      (254 :: 202 :: op :: (payload.length % 256) :: (payload.length / 256 % 256)
        :: (payload.length / 65536 % 256) :: (payload.length / 16777216 % 256)
        :: (payload ++ rest))
      = (payload.length % 256) :: (payload.length / 256 % 256)
          :: (payload.length / 65536 % 256) :: (payload.length / 16777216 % 256)
          :: (payload ++ rest) := rfl
  have hget : (254 :: 202 :: op :: (payload.length % 256) :: (payload.length / 256 % 256)
      :: (payload.length / 65536 % 256) :: (payload.length / 16777216 % 256)
      :: (payload ++ rest)).getD 2 0 = op := rfl
  have hdrop7 : List.drop HEADER_SIZE
      (254 :: 202 :: op :: (payload.length % 256) :: (payload.length / 256 % 256)
        :: (payload.length / 65536 % 256) :: (payload.length / 16777216 % 256)
        :: (payload ++ rest)) = payload ++ rest := rfl
  have hm : (254 + 256 * 202 : Nat) = MAGIC := rfl
  have hparse : FrameHeader.parse
      (254 :: 202 :: op :: (payload.length % 256) :: (payload.length / 256 % 256)
        :: (payload.length / 65536 % 256) :: (payload.length / 16777216 % 256)
        :: (payload ++ rest))
      = some { magic := MAGIC, opcode := op, length := payload.length } := by
    rw [FrameHeader.parse]
    rw [if_neg (by simp only [List.length_cons, HEADER_SIZE]; omega)]
    simp only [hdrop3, hget, rd16_cons, rd32_cons, hr]
    rw [if_neg (by simp [hm])]
    rw [if_neg (by omega)]
    rw [hm]
  rw [MessageDecoder.decode]
  rw [if_neg (by simp only [List.length_cons, HEADER_SIZE]; omega)]
  rw [hparse]
  simp only [hdrop7]
  rw [if_neg (by simp only [List.length_cons, List.length_append, HEADER_SIZE]; omega)]
  rw [List.take_left]

end Proto

namespace Proto

theorem Frame.opcode_lt (F : Frame) : F.opcode < 256 := by
  cases F <;> simp [Frame.opcode, OP_HANDSHAKE_PUB, OP_HANDSHAKE_SUB, OP_HANDSHAKE_ACK,
    OP_DISCONNECT, OP_PUBLISH, OP_SUBSCRIBE, OP_UNSUBSCRIBE, OP_MESSAGE, OP_PING,
    OP_PONG, OP_ERROR]

end Proto

namespace Proto

/-- Decoding a buffer that starts with the encoding of a well-formed frame
yields that frame and consumes exactly its bytes. -/
theorem decode_encode_append (F : Frame) (rest : List Nat) (h : F.wf) :
    MessageDecoder.decode (F.encode ++ rest) =
      { needMoreData := false, bytesConsumed := HEADER_SIZE + F.payload.length,
        message := some F.decoded } := by
  have hMP : MAX_PAYLOAD_SIZE = 1048576 := rfl
  cases F with
  | handshakePub ch cid =>
    simp only [Frame.wf, Frame.payload] at h
    simp at h
    have hlen : (([ch % 256, cid.length % 256] ++ cid) : List Nat).length = 2 + cid.length := by
      simp
      omega
    have hmax : 2 + cid.length ≤ MAX_PAYLOAD_SIZE := by omega
    have key := decode_serialize_frame OP_HANDSHAKE_PUB (2 + cid.length)
      ([ch % 256, cid.length % 256] ++ cid) rest hlen hmax (by norm_num [OP_HANDSHAKE_PUB])
    unfold Frame.encode MessageEncoder.encodeHandshakePub
    unfold Frame.decoded Frame.opcode Frame.payload
    simpa [List.append_assoc, Nat.add_comm, Nat.add_left_comm, Nat.add_assoc] using key
  | handshakeSub chans cid =>
    simp only [Frame.wf, Frame.payload] at h
    simp at h
    have hlen : (([chans.length % 256] ++ chans ++ [cid.length % 256] ++ cid) : List Nat).length
        = 1 + chans.length + 1 + cid.length := by
      simp
      omega
    have hmax : 1 + chans.length + 1 + cid.length ≤ MAX_PAYLOAD_SIZE := by omega
    have key := decode_serialize_frame OP_HANDSHAKE_SUB (1 + chans.length + 1 + cid.length)
      ([chans.length % 256] ++ chans ++ [cid.length % 256] ++ cid) rest hlen hmax
      (by norm_num [OP_HANDSHAKE_SUB])
    unfold Frame.encode MessageEncoder.encodeHandshakeSub
    unfold Frame.decoded Frame.opcode Frame.payload
    simpa [List.append_assoc, Nat.add_comm, Nat.add_left_comm, Nat.add_assoc] using key
  | handshakeAck status sid =>
    have hlen : (([status % 256] ++ le64 sid) : List Nat).length = 9 := by
      simp [le64]
    have key := decode_serialize_frame OP_HANDSHAKE_ACK 9
      ([status % 256] ++ le64 sid) rest hlen (by omega) (by norm_num [OP_HANDSHAKE_ACK])
    unfold Frame.encode MessageEncoder.encodeHandshakeAck
    unfold Frame.decoded Frame.opcode Frame.payload
    simpa [List.append_assoc, hlen, HEADER_SIZE] using key
  | publish ch msg =>
    simp only [Frame.wf, Frame.payload] at h
    simp at h
    have hlen : (([ch % 256] ++ msg) : List Nat).length = 1 + msg.length := by
      simp
      omega
    have hmax : 1 + msg.length ≤ MAX_PAYLOAD_SIZE := by omega
    have key := decode_serialize_frame OP_PUBLISH (1 + msg.length)
      ([ch % 256] ++ msg) rest hlen hmax (by norm_num [OP_PUBLISH])
    unfold Frame.encode MessageEncoder.encodePublish
    unfold Frame.decoded Frame.opcode Frame.payload
    simpa [List.append_assoc, Nat.add_comm, Nat.add_left_comm, Nat.add_assoc] using key
  | message ch ts msg =>
    simp only [Frame.wf, Frame.payload] at h
    simp [le64] at h
    have hlen : (([ch % 256] ++ le64 ts ++ msg) : List Nat).length = 1 + 8 + msg.length := by
      simp [le64]
      omega
    have hmax : 1 + 8 + msg.length ≤ MAX_PAYLOAD_SIZE := by omega
    have key := decode_serialize_frame OP_MESSAGE (1 + 8 + msg.length)
      ([ch % 256] ++ le64 ts ++ msg) rest hlen hmax (by norm_num [OP_MESSAGE])
    unfold Frame.encode MessageEncoder.encodeMessage
    unfold Frame.decoded Frame.opcode Frame.payload
    simpa [List.append_assoc, Nat.add_comm, Nat.add_left_comm, Nat.add_assoc] using key
  | subscribe ch =>
    have key := decode_serialize_frame OP_SUBSCRIBE 1 [ch % 256] rest rfl (by omega)
      (by norm_num [OP_SUBSCRIBE])
    unfold Frame.encode MessageEncoder.encodeSubscribe
    unfold Frame.decoded Frame.opcode Frame.payload
    simpa [HEADER_SIZE] using key
  | unsubscribe ch =>
    have key := decode_serialize_frame OP_UNSUBSCRIBE 1 [ch % 256] rest rfl (by omega)
      (by norm_num [OP_UNSUBSCRIBE])
    unfold Frame.encode MessageEncoder.encodeUnsubscribe
    unfold Frame.decoded Frame.opcode Frame.payload
    simpa [HEADER_SIZE] using key
  | disconnect =>
    have key := decode_serialize_frame OP_DISCONNECT 0 [] rest rfl (by omega)
      (by norm_num [OP_DISCONNECT])
    unfold Frame.encode MessageEncoder.encodeDisconnect
    unfold Frame.decoded Frame.opcode Frame.payload
    simpa [HEADER_SIZE] using key
  | ping =>
    have key := decode_serialize_frame OP_PING 0 [] rest rfl (by omega)
      (by norm_num [OP_PING])
    unfold Frame.encode MessageEncoder.encodePing
    unfold Frame.decoded Frame.opcode Frame.payload
    simpa [HEADER_SIZE] using key
  | pong =>
    have key := decode_serialize_frame OP_PONG 0 [] rest rfl (by omega)
      (by norm_num [OP_PONG])
    unfold Frame.encode MessageEncoder.encodePong
    unfold Frame.decoded Frame.opcode Frame.payload
    simpa [HEADER_SIZE] using key
  | error ec =>
    have key := decode_serialize_frame OP_ERROR 1 [ec % 256] rest rfl (by omega)
      (by norm_num [OP_ERROR])
    unfold Frame.encode MessageEncoder.encodeError
    unfold Frame.decoded Frame.opcode Frame.payload
    simpa [HEADER_SIZE] using key

/-- Every encoder writes exactly a 7-byte header plus its payload bytes. -/
theorem Frame.encode_length (F : Frame) : F.encode.length = HEADER_SIZE + F.payload.length := by
  cases F <;>
    simp [Frame.encode, Frame.payload, MessageEncoder.encodeHandshakePub,
      MessageEncoder.encodeHandshakeSub, MessageEncoder.encodeHandshakeAck,
      MessageEncoder.encodePublish, MessageEncoder.encodeMessage,
      MessageEncoder.encodeSubscribe, MessageEncoder.encodeUnsubscribe,
      MessageEncoder.encodeDisconnect, MessageEncoder.encodePing,
      MessageEncoder.encodePong, MessageEncoder.encodeError,
      FrameHeader.serialize, le16, le32, le64, HEADER_SIZE] <;>
    omega

/-- For well-formed frames the `uint32_t` size computation does not wrap. -/
theorem Frame.sizeOf_eq (F : Frame) (h : F.wf) :
    F.sizeOf = HEADER_SIZE + F.payload.length := by
  have hMP : MAX_PAYLOAD_SIZE = 1048576 := rfl
  unfold Frame.wf at h
  cases F <;>
    simp only [Frame.sizeOf, Frame.payload, MessageEncoder.sizeHandshakePub,
      MessageEncoder.sizeHandshakeSub, MessageEncoder.sizeHandshakeAck,
      MessageEncoder.sizePublish, MessageEncoder.sizeMessage,
      MessageEncoder.sizeSubscribe, MessageEncoder.sizeUnsubscribe,
      MessageEncoder.sizeDisconnect, MessageEncoder.sizePing,
      MessageEncoder.sizePong, MessageEncoder.sizeError, HEADER_SIZE] at * <;>
    simp [le64] at * <;>
    omega

end Proto

open Proto in
/-- C1: for every valid frame F (any opcode, payload at most 1,048,576 bytes),
decoding the encoder's output yields Ok with a message equal to F (same
opcode, payload length and payload bytes) and bytes_consumed = size_of(F). -/
theorem c1_decode_encode_roundtrip (F : Frame) (h : F.wf) :
    MessageDecoder.decode F.encode =
      { needMoreData := false, bytesConsumed := F.sizeOf,
        message := some F.decoded } := by
  have h1 := decode_encode_append F [] h
  rw [List.append_nil] at h1
  rw [h1, Frame.sizeOf_eq F h]

/-- C1 witness at a concrete PUBLISH frame. -/
theorem c1_decode_encode_roundtrip_witness :
    (Proto.Frame.publish 5 [104, 105]).wf ∧
      Proto.MessageDecoder.decode (Proto.Frame.publish 5 [104, 105]).encode =
        { needMoreData := false, bytesConsumed := (Proto.Frame.publish 5 [104, 105]).sizeOf,
          message := some (Proto.Frame.publish 5 [104, 105]).decoded } :=
  ⟨by decide, c1_decode_encode_roundtrip _ (by decide)⟩

open Proto in
/-- C9: for every opcode and argument tuple, size_of returns exactly the
number of bytes the corresponding encode call writes (header plus payload).
The hypothesis rules out the `uint32_t` wrap-around of the size functions,
which only occurs for argument lists of at least 2^32 - 9 bytes. -/
theorem c9_size_eq_encode_length (F : Frame)
    (h : HEADER_SIZE + F.payload.length < 2 ^ 32) :
    F.sizeOf = F.encode.length := by
  have h32 : (2 : Nat) ^ 32 = 4294967296 := by norm_num
  cases F <;>
    simp only [Frame.sizeOf, Frame.encode, Frame.payload,
      MessageEncoder.sizeHandshakePub, MessageEncoder.encodeHandshakePub,
      MessageEncoder.sizeHandshakeSub, MessageEncoder.encodeHandshakeSub,
      MessageEncoder.sizeHandshakeAck, MessageEncoder.encodeHandshakeAck,
      MessageEncoder.sizePublish, MessageEncoder.encodePublish,
      MessageEncoder.sizeMessage, MessageEncoder.encodeMessage,
      MessageEncoder.sizeSubscribe, MessageEncoder.encodeSubscribe,
      MessageEncoder.sizeUnsubscribe, MessageEncoder.encodeUnsubscribe,
      MessageEncoder.sizeDisconnect, MessageEncoder.encodeDisconnect,
      MessageEncoder.sizePing, MessageEncoder.encodePing,
      MessageEncoder.sizePong, MessageEncoder.encodePong,
      MessageEncoder.sizeError, MessageEncoder.encodeError,
      FrameHeader.serialize, le16, le32, le64, HEADER_SIZE] at * <;>
    simp [List.length_append, le64] at * <;>
    omega

/-- C9 witness at a concrete HANDSHAKE_SUB frame. -/
theorem c9_size_eq_encode_length_witness :
    Proto.HEADER_SIZE + (Proto.Frame.handshakeSub [5, 7] [115, 117, 98]).payload.length < 2 ^ 32 ∧
      (Proto.Frame.handshakeSub [5, 7] [115, 117, 98]).sizeOf
        = (Proto.Frame.handshakeSub [5, 7] [115, 117, 98]).encode.length :=
  ⟨by decide, c9_size_eq_encode_length _ (by decide)⟩

open Proto in
/-- C3 counterexample: the byte sequence 00 00 00 05 00 00 00 is shorter than
7 + its length field (5), yet `decode` reports Invalid (needMoreData = false),
not NeedMore, because its magic is not 0xCAFE. -/
theorem c3_counterexample :
    ([0, 0, 0, 5, 0, 0, 0] : List Nat).length < 7 + lengthField [0, 0, 0, 5, 0, 0, 0] ∧
      MessageDecoder.decode [0, 0, 0, 5, 0, 0, 0] =
        { needMoreData := false, bytesConsumed := 0, message := none } := by
  constructor
  · decide
  · decide

open Proto in
/-- C3 amended: for every byte sequence B that is shorter than 7 bytes, or
whose header is valid (magic = 0xCAFE, length field at most 1,048,576) and
that is shorter than 7 + its length field, decode returns NeedMore with
bytes_consumed = 0. -/
theorem c3_decode_needmore (B : List Nat)
    (h : B.length < HEADER_SIZE ∨
      (magicField B = MAGIC ∧ lengthField B ≤ MAX_PAYLOAD_SIZE ∧
        B.length < HEADER_SIZE + lengthField B)) :
    MessageDecoder.decode B =
      { needMoreData := true, bytesConsumed := 0, message := none } := by
  by_cases hlt : B.length < HEADER_SIZE
  · rw [MessageDecoder.decode, if_pos hlt]
  · rcases h with h | ⟨hm, hmax, hshort⟩
    · exact absurd h hlt
    · have hparse : FrameHeader.parse B =
          some { magic := rd16 B, opcode := B.getD 2 0, length := rd32 (B.drop 3) } := by
        rw [FrameHeader.parse, if_neg hlt]
        rw [if_neg (by simp only [magicField] at hm; simp [hm])]
        rw [if_neg (by simp only [lengthField] at hmax; simp; omega)]
      rw [MessageDecoder.decode, if_neg hlt]
      rw [hparse]
      simp only [lengthField] at hshort
      simp only [HEADER_SIZE] at hshort ⊢
      rw [if_pos (by omega)]

/-- C3 amended witness: the partial-frame bytes of spec scenario S3. -/
theorem c3_decode_needmore_witness :
    (([254, 202, 19, 2, 0, 0, 0, 5] : List Nat).length < Proto.HEADER_SIZE ∨
      (Proto.magicField [254, 202, 19, 2, 0, 0, 0, 5] = Proto.MAGIC ∧
        Proto.lengthField [254, 202, 19, 2, 0, 0, 0, 5] ≤ Proto.MAX_PAYLOAD_SIZE ∧
        ([254, 202, 19, 2, 0, 0, 0, 5] : List Nat).length
          < Proto.HEADER_SIZE + Proto.lengthField [254, 202, 19, 2, 0, 0, 0, 5])) ∧
      Proto.MessageDecoder.decode [254, 202, 19, 2, 0, 0, 0, 5] =
        { needMoreData := true, bytesConsumed := 0, message := none } :=
  ⟨by decide, c3_decode_needmore _ (by decide)⟩

open Proto in
/-- C4 counterexample: the two bytes DE AD have magic 0xADDE ≠ 0xCAFE, yet
`decode` returns the NeedMore shape (needMoreData = true), not the Invalid
shape, because fewer than 7 bytes are available. -/
theorem c4_counterexample :
    magicField [222, 173] ≠ MAGIC ∧
      MessageDecoder.decode [222, 173] =
        { needMoreData := true, bytesConsumed := 0, message := none } := by
  constructor
  · decide
  · decide

open Proto in
/-- C4 amended: for every byte sequence B of at least 7 bytes whose magic is
not 0xCAFE or whose length field exceeds 1,048,576, decode returns the
Invalid shape: needMoreData = false, bytes_consumed = 0 and no message. -/
theorem c4_decode_invalid (B : List Nat) (h7 : HEADER_SIZE ≤ B.length)
    (h : magicField B ≠ MAGIC ∨ MAX_PAYLOAD_SIZE < lengthField B) :
    MessageDecoder.decode B =
      { needMoreData := false, bytesConsumed := 0, message := none } := by
  have hlt : ¬ B.length < HEADER_SIZE := by omega
  have hparse : FrameHeader.parse B = none := by
    rw [FrameHeader.parse, if_neg hlt]
    by_cases hm : rd16 B ≠ MAGIC
    · rw [if_pos hm]
    · rcases h with h | h
      · exact absurd (by simpa [magicField] using h) (by simpa using hm)
      · rw [if_neg hm]
        rw [if_pos (by simp only [lengthField] at h; simp; omega)]
  rw [MessageDecoder.decode, if_neg hlt, hparse]

/-- C4 amended witness: the invalid-magic frame of spec scenario S4. -/
theorem c4_decode_invalid_witness :
    Proto.HEADER_SIZE ≤ ([222, 173, 19, 0, 0, 0, 0] : List Nat).length ∧
      Proto.MessageDecoder.decode [222, 173, 19, 0, 0, 0, 0] =
        { needMoreData := false, bytesConsumed := 0, message := none } :=
  ⟨by decide, c4_decode_invalid _ (by decide) (by decide)⟩

/-! ## Association-list and bit-mask lemmas -/

theorem assocGet_assocUpdate_self {α β : Type} [DecidableEq α]
    (l : List (α × β)) (k : α) (f : β → β) :
    assocGet (assocUpdate l k f) k = (assocGet l k).map f := by
  induction l with
  | nil => rfl
  | cons p t ih =>
    by_cases h : p.1 = k
    · simp only [assocUpdate, List.map_cons, if_pos h, assocGet]
      rw [List.find?_cons_of_pos _ (by simp [h]), List.find?_cons_of_pos _ (by simp [h])]
      simp
    · simp only [assocUpdate, List.map_cons, if_neg h, assocGet]
      rw [List.find?_cons_of_neg _ (by simp [h]), List.find?_cons_of_neg _ (by simp [h])]
      exact ih

theorem assocGet_assocUpdate_ne {α β : Type} [DecidableEq α]
    (l : List (α × β)) (k k' : α) (f : β → β) (h : k' ≠ k) :
    assocGet (assocUpdate l k f) k' = assocGet l k' := by
  induction l with
  | nil => rfl
  | cons p t ih =>
    by_cases hp : p.1 = k'
    · have hpk : ¬ p.1 = k := by rw [hp]; exact h
      simp only [assocUpdate, List.map_cons, if_neg hpk, assocGet]
      rw [List.find?_cons_of_pos _ (by simp [hp]), List.find?_cons_of_pos _ (by simp [hp])]
    · by_cases hpk : p.1 = k
      · simp only [assocUpdate, List.map_cons, if_pos hpk, assocGet]
        rw [List.find?_cons_of_neg _ (by simp [hp])]
        rw [List.find?_cons_of_neg _ (by simp [hp])]
        exact ih
      · simp only [assocUpdate, List.map_cons, if_neg hpk, assocGet]
        rw [List.find?_cons_of_neg _ (by simp [hp]), List.find?_cons_of_neg _ (by simp [hp])]
        exact ih

theorem testBit_setBit_self (m i : Nat) : (setBit m i).testBit i = true := by
  simp [setBit, Nat.testBit_or, Nat.shiftLeft_eq, Nat.testBit_two_pow]

theorem testBit_setBit_of_testBit (m i j : Nat) (h : m.testBit i = true) :
    (setBit m j).testBit i = true := by
  simp [setBit, Nat.testBit_or, h]

theorem testBit_foldl_setBit_of_testBit (chans : List Nat) (m i : Nat)
    (h : m.testBit i = true) : (chans.foldl setBit m).testBit i = true := by
  induction chans generalizing m with
  | nil => exact h
  | cons c t ih =>
    simp only [List.foldl_cons]
    exact ih _ (testBit_setBit_of_testBit _ _ _ h)

theorem testBit_foldl_setBit_of_mem (chans : List Nat) (m i : Nat)
    (h : i ∈ chans) : (chans.foldl setBit m).testBit i = true := by
  induction chans generalizing m with
  | nil => cases h
  | cons c t ih =>
    simp only [List.foldl_cons]
    rcases List.mem_cons.mp h with h | h
    · subst h
      exact testBit_foldl_setBit_of_testBit t _ _ (testBit_setBit_self _ _)
    · exact ih _ h

namespace Proto

/-- `decode` returns one of exactly three result shapes. -/
theorem decode_shape (data : List Nat) :
    MessageDecoder.decode data = { needMoreData := true, bytesConsumed := 0, message := none }
    ∨ MessageDecoder.decode data = { needMoreData := false, bytesConsumed := 0, message := none }
    ∨ ∃ m, MessageDecoder.decode data =
        { needMoreData := false, bytesConsumed := HEADER_SIZE + m.payloadLen,
          message := some m } := by
  unfold MessageDecoder.decode
  split
  · exact Or.inl rfl
  · split
    · exact Or.inr (Or.inl rfl)
    · dsimp only []
      split
      · exact Or.inl rfl
      · exact Or.inr (Or.inr ⟨⟨_, _, _⟩, rfl⟩)

theorem decode_message_some_needMore (data : List Nat) (m : DecodedMessage)
    (h : (MessageDecoder.decode data).message = some m) :
    (MessageDecoder.decode data).needMoreData = false := by
  rcases decode_shape data with hs | hs | ⟨m', hs⟩ <;> rw [hs] at h ⊢ <;> simp_all

end Proto

namespace TcpBroker

theorem getClient_updateClient_self (b : Broker) (fd : Nat) (f : Client → Client) :
    getClient (updateClient b fd f) fd = (getClient b fd).map f :=
  assocGet_assocUpdate_self _ _ _

theorem getClient_updateClient_ne (b : Broker) (fd fd' : Nat) (f : Client → Client)
    (h : fd' ≠ fd) : getClient (updateClient b fd f) fd' = getClient b fd' :=
  assocGet_assocUpdate_ne _ _ _ _ h

theorem sessionIdCounter_updateClient (b : Broker) (fd : Nat) (f : Client → Client) :
    (updateClient b fd f).sessionIdCounter = b.sessionIdCounter := rfl

/-- `enqueueMessage` on a READY client with a non-full queue appends the frame
and raises the send flag. -/
theorem enqueueMessage_ready (b : Broker) (fd : Nat) (msg : List Nat) (c : Client)
    (hc : getClient b fd = some c) (hst : c.state = .READY)
    (hq : c.sendQueue.length < MAX_SEND_QUEUE) :
    enqueueMessage b fd msg = updateClient b fd (fun _ =>
      { c with sendQueue := c.sendQueue ++ [msg], sendInProgress := true }) := by
  have hq' : ¬ (MAX_SEND_QUEUE ≤ c.sendQueue.length) := by omega
  have hst' : ¬ (c.state ≠ ClientState.READY) := by simp [hst]
  by_cases hp : c.sendInProgress
  · simp only [enqueueMessage, hc, if_neg hst', if_neg hq']
    simp [hp]
  · simp only [enqueueMessage, hc, if_neg hst', if_neg hq']
    simp [hp]

/-- `subscribeToChannel` only sets the mask bit on the subject client's record
(the broker's subscriber lists change, the other client fields do not). -/
theorem getClient_subscribeToChannel_self (b : Broker) (fd ch : Nat) (c : Client)
    (hc : getClient b fd = some c) :
    getClient (subscribeToChannel b fd ch) fd =
      some { c with channels := setBit c.channels ch } := by
  unfold subscribeToChannel
  simp only [hc]
  have hg : getClient (updateClient b fd
      (fun c0 => { c0 with channels := setBit c0.channels ch })) fd
      = some { c with channels := setBit c.channels ch } := by
    rw [getClient_updateClient_self, hc]
    rfl
  by_cases hmem : fd ∈ subsOf (updateClient b fd
      (fun c0 => { c0 with channels := setBit c0.channels ch })) ch
  · simp only [if_pos hmem]
    exact hg
  · simp only [if_neg hmem]
    exact hg

theorem sessionIdCounter_subscribeToChannel (b : Broker) (fd ch : Nat) :
    (subscribeToChannel b fd ch).sessionIdCounter = b.sessionIdCounter := by
  unfold subscribeToChannel
  cases hg : getClient b fd
  · rfl
  · dsimp only []
    split <;> rfl

/-- Folding `subscribeToChannel` over a channel list sets exactly those mask
bits, leaving the other fields of the client record unchanged. -/
theorem getClient_subscribeFold (chans : List Nat) (b : Broker) (fd : Nat) (c : Client)
    (hc : getClient b fd = some c) :
    getClient (chans.foldl (fun acc ch => subscribeToChannel acc fd ch) b) fd =
      some { c with channels := chans.foldl setBit c.channels } := by
  induction chans generalizing b c with
  | nil => simpa using hc
  | cons ch t ih =>
    simp only [List.foldl_cons]
    have h1 := getClient_subscribeToChannel_self b fd ch c hc
    exact ih _ _ h1

theorem sessionIdCounter_subscribeFold (chans : List Nat) (b : Broker) (fd : Nat) :
    (chans.foldl (fun acc ch => subscribeToChannel acc fd ch) b).sessionIdCounter
      = b.sessionIdCounter := by
  induction chans generalizing b with
  | nil => rfl
  | cons ch t ih =>
    simp only [List.foldl_cons]
    rw [ih, sessionIdCounter_subscribeToChannel]

end TcpBroker

namespace TcpBroker

open Proto

theorem getClient_setCounter (b : Broker) (n fd : Nat) :
    getClient { b with sessionIdCounter := n } fd = getClient b fd := rfl

/-- A successful HANDSHAKE_PUB: the client becomes a READY publisher with the
declared channel bit set and the client id recorded, the HANDSHAKE_ACK for
the current counter value is appended to its queue, and the counter is
bumped. -/
theorem parseHandshake_pub_success (b : Broker) (fd : Nat) (c : Client) (m : DecodedMessage)
    (hc : getClient b fd = some c)
    (hq : c.sendQueue.length < MAX_SEND_QUEUE)
    (hm : (MessageDecoder.decode c.recvBuffer).message = some m)
    (hok : pubHandshakeOk m) :
    (parseHandshake b fd).2 = true ∧
    (parseHandshake b fd).1.sessionIdCounter = b.sessionIdCounter + 1 ∧
    getClient (parseHandshake b fd).1 fd = some
      { type := .PUBLISHER, state := .READY,
        channels := setBit c.channels (m.payload.getD 0 0 % 256),
        recvBuffer := c.recvBuffer.drop (MessageDecoder.decode c.recvBuffer).bytesConsumed,
        sendQueue := c.sendQueue ++ [MessageEncoder.encodeHandshakeAck 0 b.sessionIdCounter],
        sendInProgress := true,
        clientId := (m.payload.drop 2).take (m.payload.getD 1 0 % 256) } := by
  obtain ⟨hop, h2, hfit⟩ := hok
  have hnm := decode_message_some_needMore _ _ hm
  have hc1 : getClient (updateClient b fd (fun c0 =>
      { c0 with clientId := (m.payload.drop 2).take (m.payload.getD 1 0 % 256),
                type := .PUBLISHER, state := .READY,
                channels := setBit c0.channels (m.payload.getD 0 0 % 256) })) fd
      = some { c with clientId := (m.payload.drop 2).take (m.payload.getD 1 0 % 256),
                      type := .PUBLISHER, state := .READY,
                      channels := setBit c.channels (m.payload.getD 0 0 % 256) } := by
    rw [getClient_updateClient_self, hc]
    rfl
  have henq := enqueueMessage_ready _ fd
    (MessageEncoder.encodeHandshakeAck 0 b.sessionIdCounter) _ hc1 rfl hq
  unfold parseHandshake
  simp only [hc, hnm, hm, Bool.false_eq_true, if_false]
  rw [if_pos hop]
  rw [if_pos h2]
  rw [if_pos hfit]
  refine ⟨rfl, ?_, ?_⟩
  · rw [henq]
    rfl
  · rw [henq]
    rw [show ∀ (bx : Broker) (n : Nat) (f : Client → Client),
        getClient (updateClient { bx with sessionIdCounter := n } fd f) fd
          = (getClient bx fd).map f from fun bx n f => by
      rw [getClient_updateClient_self, getClient_setCounter]]
    rw [getClient_updateClient_self, hc1]
    rfl

end TcpBroker

namespace TcpBroker

open Proto

/-- A successful HANDSHAKE_SUB: the client becomes a READY subscriber with all
declared channel bits set; the client id is recorded only when its declared
length also fits the payload; the HANDSHAKE_ACK for the current counter value
is appended and the counter bumped. -/
theorem parseHandshake_sub_success (b : Broker) (fd : Nat) (c : Client) (m : DecodedMessage)
    (hc : getClient b fd = some c)
    (hq : c.sendQueue.length < MAX_SEND_QUEUE)
    (hm : (MessageDecoder.decode c.recvBuffer).message = some m)
    (hok : subHandshakeOk m) :
    (parseHandshake b fd).2 = true ∧
    (parseHandshake b fd).1.sessionIdCounter = b.sessionIdCounter + 1 ∧
    getClient (parseHandshake b fd).1 fd = some
      { type := .SUBSCRIBER, state := .READY,
        channels := ((List.range (m.payload.getD 0 0 % 256)).map
            (fun i => m.payload.getD (1 + i) 0 % 256)).foldl setBit c.channels,
        recvBuffer := c.recvBuffer.drop (MessageDecoder.decode c.recvBuffer).bytesConsumed,
        sendQueue := c.sendQueue ++ [MessageEncoder.encodeHandshakeAck 0 b.sessionIdCounter],
        sendInProgress := true,
        clientId :=
          if 1 + (m.payload.getD 0 0 % 256) + 1 + (m.payload.getD (1 + (m.payload.getD 0 0 % 256)) 0 % 256)
              ≤ m.payloadLen then
            (m.payload.drop (1 + (m.payload.getD 0 0 % 256) + 1)).take
              (m.payload.getD (1 + (m.payload.getD 0 0 % 256)) 0 % 256)
          else c.clientId } := by
  obtain ⟨hop, h2, hfit⟩ := hok
  have hnm := decode_message_some_needMore _ _ hm
  have hop1 : ¬ (m.opcode = OP_HANDSHAKE_PUB) := by
    rw [hop]
    decide
  have hc1 : getClient (updateClient b fd (fun c0 =>
      { c0 with type := .SUBSCRIBER, state := .READY })) fd
      = some { c with type := .SUBSCRIBER, state := .READY } := by
    rw [getClient_updateClient_self, hc]
    rfl
  have hfold := getClient_subscribeFold
    ((List.range (m.payload.getD 0 0 % 256)).map (fun i => m.payload.getD (1 + i) 0 % 256))
    _ fd _ hc1
  unfold parseHandshake
  simp only [hc, hnm, hm, Bool.false_eq_true, if_false]
  rw [if_neg hop1]
  rw [if_pos hop]
  rw [if_pos h2]
  rw [if_pos hfit]
  by_cases hcid : 1 + (m.payload.getD 0 0 % 256) + 1
      + (m.payload.getD (1 + (m.payload.getD 0 0 % 256)) 0 % 256) ≤ m.payloadLen
  · rw [if_pos hcid]
    have hc3 : getClient (updateClient (((List.range (m.payload.getD 0 0 % 256)).map
        (fun i => m.payload.getD (1 + i) 0 % 256)).foldl
          (fun acc ch => subscribeToChannel acc fd ch)
          (updateClient b fd (fun c0 => { c0 with type := .SUBSCRIBER, state := .READY })))
        fd (fun c0 => { c0 with clientId :=
          ((m.payload.drop (1 + (m.payload.getD 0 0 % 256) + 1)).take
            (m.payload.getD (1 + (m.payload.getD 0 0 % 256)) 0 % 256)) })) fd
        = some { type := .SUBSCRIBER, state := .READY,
                 channels := ((List.range (m.payload.getD 0 0 % 256)).map
                     (fun i => m.payload.getD (1 + i) 0 % 256)).foldl setBit c.channels,
                 recvBuffer := c.recvBuffer,
                 sendQueue := c.sendQueue, sendInProgress := c.sendInProgress,
                 clientId := (m.payload.drop (1 + (m.payload.getD 0 0 % 256) + 1)).take
                   (m.payload.getD (1 + (m.payload.getD 0 0 % 256)) 0 % 256) } := by
      rw [getClient_updateClient_self, hfold]
      rfl
    have henq := enqueueMessage_ready _ fd
      (MessageEncoder.encodeHandshakeAck 0 b.sessionIdCounter) _ hc3 rfl hq
    rw [henq]
    refine ⟨rfl, rfl, ?_⟩
    rw [show ∀ (bx : Broker) (n : Nat) (f : Client → Client),
        getClient (updateClient { bx with sessionIdCounter := n } fd f) fd
          = (getClient bx fd).map f from fun bx n f => by
      rw [getClient_updateClient_self, getClient_setCounter]]
    rw [getClient_updateClient_self, hc3]
    rw [if_pos hcid]
    rfl
  · rw [if_neg hcid]
    have henq := enqueueMessage_ready _ fd
      (MessageEncoder.encodeHandshakeAck 0 b.sessionIdCounter) _ hfold rfl hq
    rw [henq]
    refine ⟨rfl, rfl, ?_⟩
    rw [show ∀ (bx : Broker) (n : Nat) (f : Client → Client),
        getClient (updateClient { bx with sessionIdCounter := n } fd f) fd
          = (getClient bx fd).map f from fun bx n f => by
      rw [getClient_updateClient_self, getClient_setCounter]]
    rw [getClient_updateClient_self, hfold]
    rw [if_neg hcid]
    rfl

end TcpBroker

namespace TcpBroker

open Proto

/-- When no handshake arm succeeds, `parseHandshake` returns false and either
leaves the broker untouched or — exactly on a decoder Invalid — marks the
client CLOSING. -/
theorem parseHandshake_not_success (b : Broker) (fd : Nat) (c : Client)
    (hc : getClient b fd = some c)
    (hfail : ¬ ∃ m, (MessageDecoder.decode c.recvBuffer).message = some m ∧
      (pubHandshakeOk m ∨ subHandshakeOk m)) :
    parseHandshake b fd = (b, false) ∨
    ((MessageDecoder.decode c.recvBuffer).needMoreData = false ∧
      (MessageDecoder.decode c.recvBuffer).message = none ∧
      parseHandshake b fd =
        (updateClient b fd (fun c0 => { c0 with state := .CLOSING }), false)) := by
  rcases decode_shape c.recvBuffer with h1 | h2 | ⟨m, h3⟩
  · left
    unfold parseHandshake
    rw [hc]
    simp [h1]
  · right
    refine ⟨by rw [h2], by rw [h2], ?_⟩
    unfold parseHandshake
    rw [hc]
    simp only [h2, Bool.false_eq_true, if_false]
  · have hnm : (MessageDecoder.decode c.recvBuffer).needMoreData = false := by rw [h3]
    have hm : (MessageDecoder.decode c.recvBuffer).message = some m := by rw [h3]
    have hnot : ∀ ok : pubHandshakeOk m ∨ subHandshakeOk m, False := fun ok =>
      hfail ⟨m, hm, ok⟩
    left
    unfold parseHandshake
    rw [hc]
    simp only [hnm, hm, Bool.false_eq_true, if_false]
    by_cases hop : m.opcode = OP_HANDSHAKE_PUB
    · rw [if_pos hop]
      by_cases h2p : 2 ≤ m.payloadLen
      · rw [if_pos h2p]
        rw [if_neg (fun hfit => hnot (Or.inl ⟨hop, h2p, hfit⟩))]
      · rw [if_neg h2p]
    · rw [if_neg hop]
      by_cases hop2 : m.opcode = OP_HANDSHAKE_SUB
      · rw [if_pos hop2]
        by_cases h2s : 2 ≤ m.payloadLen
        · rw [if_pos h2s]
          rw [if_neg (fun hfit => hnot (Or.inr ⟨hop2, h2s, hfit⟩))]
        · rw [if_neg h2s]
      · rw [if_neg hop2]

end TcpBroker

open Proto TcpBroker in
/-- C5 (amended): for a TCP client in HANDSHAKE, the transition to READY
happens exactly when the decoder yields a valid HANDSHAKE_PUB whose cid_len
fits the declared payload length, or a valid HANDSHAKE_SUB whose channel
count fits (the cid_len is NOT required to fit for HANDSHAKE_SUB; the client
id is then simply not recorded).  On the transition the role, the declared
channel bits and (when present) the client id are recorded, and a
HANDSHAKE_ACK with status 0 and session_id equal to the current counter is
enqueued while the counter is incremented. -/
theorem c5_handshake_to_ready (b : Broker) (fd : Nat) (c : Client)
    (hc : getClient b fd = some c) (hst : c.state = .HANDSHAKE)
    (hq : c.sendQueue.length < MAX_SEND_QUEUE) :
    ((∃ c1, getClient (parseHandshake b fd).1 fd = some c1 ∧ c1.state = .READY) ↔
      (∃ m, (MessageDecoder.decode c.recvBuffer).message = some m ∧
        (pubHandshakeOk m ∨ subHandshakeOk m))) ∧
    (∀ m, (MessageDecoder.decode c.recvBuffer).message = some m → pubHandshakeOk m →
      (parseHandshake b fd).2 = true ∧
      (parseHandshake b fd).1.sessionIdCounter = b.sessionIdCounter + 1 ∧
      ∃ c1, getClient (parseHandshake b fd).1 fd = some c1 ∧
        c1.state = .READY ∧ c1.type = .PUBLISHER ∧
        c1.channels.testBit (m.payload.getD 0 0 % 256) = true ∧
        c1.clientId = (m.payload.drop 2).take (m.payload.getD 1 0 % 256) ∧
        c1.sendQueue = c.sendQueue
          ++ [MessageEncoder.encodeHandshakeAck 0 b.sessionIdCounter]) ∧
    (∀ m, (MessageDecoder.decode c.recvBuffer).message = some m → subHandshakeOk m →
      (parseHandshake b fd).2 = true ∧
      (parseHandshake b fd).1.sessionIdCounter = b.sessionIdCounter + 1 ∧
      ∃ c1, getClient (parseHandshake b fd).1 fd = some c1 ∧
        c1.state = .READY ∧ c1.type = .SUBSCRIBER ∧
        (∀ i, i < m.payload.getD 0 0 % 256 →
          c1.channels.testBit (m.payload.getD (1 + i) 0 % 256) = true) ∧
        c1.sendQueue = c.sendQueue
          ++ [MessageEncoder.encodeHandshakeAck 0 b.sessionIdCounter]) := by
  refine ⟨⟨?_, ?_⟩, ?_, ?_⟩
  · rintro ⟨c1, hg1, hs1⟩
    by_contra hfail
    rcases parseHandshake_not_success b fd c hc hfail with hcase | ⟨_, _, hcase⟩
    · have hb : (parseHandshake b fd).1 = b := by rw [hcase]
      have heq : some c = some c1 := by rw [← hg1, hb, hc]
      cases heq
      rw [hst] at hs1
      cases hs1
    · have hb : (parseHandshake b fd).1
          = updateClient b fd (fun c0 => { c0 with state := .CLOSING }) := by rw [hcase]
      have heq : some ({ c with state := ClientState.CLOSING } : Client) = some c1 := by
        rw [← hg1, hb, getClient_updateClient_self, hc]
        rfl
      cases heq
      cases hs1
  · rintro ⟨m, hm, hok | hok⟩
    · obtain ⟨_, _, hg⟩ := parseHandshake_pub_success b fd c m hc hq hm hok
      exact ⟨_, hg, rfl⟩
    · obtain ⟨_, _, hg⟩ := parseHandshake_sub_success b fd c m hc hq hm hok
      exact ⟨_, hg, rfl⟩
  · intro m hm hok
    obtain ⟨ht, hcnt, hg⟩ := parseHandshake_pub_success b fd c m hc hq hm hok
    exact ⟨ht, hcnt, _, hg, rfl, rfl, testBit_setBit_self _ _, rfl, rfl⟩
  · intro m hm hok
    obtain ⟨ht, hcnt, hg⟩ := parseHandshake_sub_success b fd c m hc hq hm hok
    refine ⟨ht, hcnt, _, hg, rfl, rfl, ?_, rfl⟩
    intro i hi
    exact testBit_foldl_setBit_of_mem _ _ _
      (List.mem_map.mpr ⟨i, List.mem_range.mpr hi, rfl⟩)

namespace TcpBroker

open Proto

/-- `parseHandshake` either fails leaving the broker untouched, fails marking
the client CLOSING (exactly on decoder Invalid), or reports success. -/
theorem parseHandshake_trichotomy (b : Broker) (fd : Nat) (c : Client)
    (hc : getClient b fd = some c) :
    (parseHandshake b fd = (b, false)
      ∧ ((MessageDecoder.decode c.recvBuffer).needMoreData = true
          ∨ ∃ m, (MessageDecoder.decode c.recvBuffer).message = some m
              ∧ ¬ pubHandshakeOk m ∧ ¬ subHandshakeOk m))
    ∨ ((MessageDecoder.decode c.recvBuffer).needMoreData = false
        ∧ (MessageDecoder.decode c.recvBuffer).message = none
        ∧ parseHandshake b fd
            = (updateClient b fd (fun c0 => { c0 with state := .CLOSING }), false))
    ∨ (parseHandshake b fd).2 = true := by
  rcases decode_shape c.recvBuffer with h1 | h2 | ⟨m, h3⟩
  · left
    constructor
    · unfold parseHandshake
      rw [hc]
      simp [h1]
    · exact Or.inl (by rw [h1])
  · right
    left
    refine ⟨by rw [h2], by rw [h2], ?_⟩
    unfold parseHandshake
    rw [hc]
    simp only [h2, Bool.false_eq_true, if_false]
  · have hnm : (MessageDecoder.decode c.recvBuffer).needMoreData = false := by rw [h3]
    have hm : (MessageDecoder.decode c.recvBuffer).message = some m := by rw [h3]
    by_cases hpub : pubHandshakeOk m
    · right
      right
      obtain ⟨hop, h2p, hfit⟩ := hpub
      unfold parseHandshake
      rw [hc]
      simp only [hnm, hm, Bool.false_eq_true, if_false]
      rw [if_pos hop, if_pos h2p, if_pos hfit]
    · by_cases hsub : subHandshakeOk m
      · right
        right
        obtain ⟨hop, h2s, hfit⟩ := hsub
        have hop1 : ¬ m.opcode = OP_HANDSHAKE_PUB := by
          rw [hop]
          decide
        unfold parseHandshake
        rw [hc]
        simp only [hnm, hm, Bool.false_eq_true, if_false]
        rw [if_neg hop1, if_pos hop, if_pos h2s, if_pos hfit]
      · left
        refine ⟨?_, Or.inr ⟨m, hm, hpub, hsub⟩⟩
        have hfail : ¬ ∃ m', (MessageDecoder.decode c.recvBuffer).message = some m'
            ∧ (pubHandshakeOk m' ∨ subHandshakeOk m') := by
          rintro ⟨m', hm', hok⟩
          rw [hm] at hm'
          cases hm'
          exact hok.elim hpub hsub
        rcases parseHandshake_not_success b fd c hc hfail with h | ⟨_, hnone, _⟩
        · exact h
        · rw [hm] at hnone
          cases hnone

end TcpBroker

open Proto TcpBroker in
/-- C6 (amended): a TCP client in HANDSHAKE that does not complete a
handshake on this drain pass transitions to CLOSING exactly when the decoder
returned Invalid or the receive buffer holds more than 1024 bytes.  A frame
whose opcode is not HANDSHAKE_PUB/HANDSHAKE_SUB does not by itself close the
client: it is left unconsumed in HANDSHAKE until the 1024-byte bound trips. -/
theorem c6_handshake_closing_iff (b : Broker) (fd ts : Nat) (c : Client)
    (hc : getClient b fd = some c) (hst : c.state = .HANDSHAKE)
    (hfail : (parseHandshake b fd).2 = false) :
    ((getClient (processClientBuffer b fd ts) fd).map Client.state
        = some ClientState.CLOSING) ↔
      (((MessageDecoder.decode c.recvBuffer).needMoreData = false ∧
          (MessageDecoder.decode c.recvBuffer).message = none) ∨
        1024 < c.recvBuffer.length) := by
  unfold processClientBuffer
  simp only [hc]
  rcases parseHandshake_trichotomy b fd c hc with ⟨heq, hwhy⟩ | ⟨hnm, hnone, heq⟩ | htrue
  · have hb1 : (parseHandshake b fd).1 = b := by rw [heq]
    simp only [processClientBufferGo, hc, if_pos hst, hfail, Bool.false_eq_true, if_false,
      hb1]
    by_cases hsz : 1024 < c.recvBuffer.length
    · rw [if_pos hsz]
      refine iff_of_true ?_ (Or.inr hsz)
      rw [getClient_updateClient_self, hc]
      rfl
    · rw [if_neg hsz]
      refine iff_of_false ?_ ?_
      · rw [hc]
        simp [hst]
      · rintro (⟨hf, hnonem⟩ | hsz')
        · rcases hwhy with hw | ⟨m, hm, _⟩
          · rw [hw] at hf
            cases hf
          · rw [hnonem] at hm
            cases hm
        · exact hsz hsz'
  · have hb1 : (parseHandshake b fd).1
        = updateClient b fd (fun c0 => { c0 with state := .CLOSING }) := by rw [heq]
    simp only [processClientBufferGo, hc, if_pos hst, hfail, Bool.false_eq_true, if_false,
      hb1, getClient_updateClient_self, hc, Option.map]
    refine iff_of_true ?_ (Or.inl ⟨hnm, hnone⟩)
    by_cases hsz : 1024 < c.recvBuffer.length
    · rw [if_pos (by exact hsz)]
      rw [getClient_updateClient_self, getClient_updateClient_self, hc]
      rfl
    · rw [if_neg (by exact hsz)]
      rw [getClient_updateClient_self, hc]
      rfl
  · rw [hfail] at htrue
    cases htrue

open Proto TcpBroker in
/-- C5 counterexample: a HANDSHAKE_SUB frame with a 2-byte payload declaring
cid_len = 200 (so the client id does not fit the payload) still transitions
the client to READY, contrary to the claim that READY is entered only when
cid_len fits the declared payload length. -/
theorem c5_counterexample :
    (MessageDecoder.decode [254, 202, 2, 2, 0, 0, 0, 0, 200]).message =
      some { opcode := OP_HANDSHAKE_SUB, payloadLen := 2, payload := [0, 200] } ∧
    ¬ (1 + (([0, 200] : List Nat).getD 0 0 % 256) + 1
        + (([0, 200] : List Nat).getD 1 0 % 256) ≤ 2) ∧
    (getClient (parseHandshake
        { clients := [(1, { Client.fresh with recvBuffer := [254, 202, 2, 2, 0, 0, 0, 0, 200] })],
          channelSubscribers := [], sessionIdCounter := 1 } 1).1 1).map Client.state
      = some ClientState.READY := by
  exact ⟨by decide, by decide, by decide⟩

open Proto TcpBroker in
/-- C5 witness: a concrete HANDSHAKE_PUB (channel 5, client id "p") moves the
client to READY. -/
theorem c5_handshake_to_ready_witness :
    ∃ c1, getClient (parseHandshake
        { clients := [(1, { Client.fresh with recvBuffer := [254, 202, 1, 3, 0, 0, 0, 5, 1, 112] })],
          channelSubscribers := [], sessionIdCounter := 1 } 1).1 1 = some c1 ∧
      c1.state = ClientState.READY :=
  (c5_handshake_to_ready
      { clients := [(1, { Client.fresh with recvBuffer := [254, 202, 1, 3, 0, 0, 0, 5, 1, 112] })],
        channelSubscribers := [], sessionIdCounter := 1 } 1
      { Client.fresh with recvBuffer := [254, 202, 1, 3, 0, 0, 0, 5, 1, 112] }
      (by decide) (by decide) (by decide)).1.mpr
    ⟨{ opcode := OP_HANDSHAKE_PUB, payloadLen := 3, payload := [5, 1, 112] },
      by decide, Or.inl (by decide)⟩

open Proto TcpBroker in
/-- C6 counterexample: a complete PING frame (opcode 0x20, not a handshake
opcode) arriving in HANDSHAKE does not transition the client to CLOSING — it
stays in HANDSHAKE with the frame unconsumed. -/
theorem c6_counterexample :
    (MessageDecoder.decode [254, 202, 32, 0, 0, 0, 0]).message =
      some { opcode := OP_PING, payloadLen := 0, payload := [] } ∧
    (getClient (processClientBuffer
        { clients := [(1, { Client.fresh with recvBuffer := [254, 202, 32, 0, 0, 0, 0] })],
          channelSubscribers := [], sessionIdCounter := 1 } 1 0) 1).map Client.state
      = some ClientState.HANDSHAKE := by
  exact ⟨by decide, by decide⟩

open Proto TcpBroker in
/-- C6 witness: a decoder-Invalid buffer (bad magic) in HANDSHAKE does move
the client to CLOSING. -/
theorem c6_handshake_closing_iff_witness :
    (getClient (processClientBuffer
        { clients := [(1, { Client.fresh with recvBuffer := [0, 0, 19, 0, 0, 0, 0] })],
          channelSubscribers := [], sessionIdCounter := 1 } 1 0) 1).map Client.state
      = some ClientState.CLOSING :=
  (c6_handshake_closing_iff
      { clients := [(1, { Client.fresh with recvBuffer := [0, 0, 19, 0, 0, 0, 0] })],
        channelSubscribers := [], sessionIdCounter := 1 } 1 0
      { Client.fresh with recvBuffer := [0, 0, 19, 0, 0, 0, 0] }
      (by decide) (by decide) (by decide)).mpr (Or.inl ⟨by decide, by decide⟩)

namespace TcpBroker

open Proto

/-- The drain loop stops immediately on an empty buffer of a non-HANDSHAKE
client. -/
theorem processClientBufferGo_empty (ts n : Nat) (hn : 0 < n) (b : Broker) (fd : Nat)
    (c : Client) (hc : getClient b fd = some c) (hst : ¬ c.state = ClientState.HANDSHAKE)
    (hbuf : c.recvBuffer = []) :
    processClientBufferGo ts n b fd = b := by
  obtain ⟨k, rfl⟩ : ∃ k, n = k + 1 := ⟨n - 1, by omega⟩
  have hr : MessageDecoder.decode c.recvBuffer =
      { needMoreData := true, bytesConsumed := 0, message := none } := by
    rw [hbuf]
    decide
  have hsz : ¬ (MAX_PAYLOAD_SIZE + HEADER_SIZE < c.recvBuffer.length) := by
    rw [hbuf]
    decide
  simp only [processClientBufferGo, hc, if_neg hst, hr]
  rw [if_pos trivial]
  rw [if_neg hsz]

end TcpBroker

open Proto TcpBroker in
/-- C7 (amended): in READY the broker acts only on PUBLISH (from publishers)
and DISCONNECT.  A complete frame with any other opcode — including
SUBSCRIBE, UNSUBSCRIBE and PING — and a PUBLISH from a non-publisher are
consumed without any other effect: no subscription is recorded, no PONG is
sent, no client record or subscriber list changes beyond removing the frame
from the receive buffer. -/
theorem c7_ready_ignores_other_opcodes (b : Broker) (fd ts : Nat) (c : Client) (F : Frame)
    (hc : getClient b fd = some c) (hst : c.state = .READY)
    (hbuf : c.recvBuffer = F.encode) (hwf : F.wf)
    (hop : (¬ F.opcode = OP_PUBLISH ∨ ¬ c.type = ClientType.PUBLISHER)
      ∧ ¬ F.opcode = OP_DISCONNECT) :
    processClientBuffer b fd ts = updateClient b fd (fun c0 =>
      { c0 with recvBuffer := c0.recvBuffer.drop (HEADER_SIZE + F.payload.length) })
    ∧ getClient (processClientBuffer b fd ts) fd = some { c with recvBuffer := [] } := by
  have hr : MessageDecoder.decode c.recvBuffer =
      { needMoreData := false, bytesConsumed := HEADER_SIZE + F.payload.length,
        message := some F.decoded } := by
    rw [hbuf]
    have := decode_encode_append F [] hwf
    rwa [List.append_nil] at this
  have hstH : ¬ c.state = ClientState.HANDSHAKE := by rw [hst]; decide
  have hb1 : ∀ bx : Broker,
      (if F.decoded.opcode = OP_PUBLISH then
        if c.type = ClientType.PUBLISHER ∧ 1 ≤ F.decoded.payloadLen then
          routeMessage bx (F.decoded.payload.getD 0 0 % 256) (F.decoded.payload.drop 1) fd ts
        else bx
      else if F.decoded.opcode = OP_DISCONNECT then
        updateClient bx fd (fun c0 => { c0 with state := .CLOSING })
      else bx) = bx := by
    intro bx
    rcases hop with ⟨hop1 | hop1, hop2⟩
    · rw [if_neg (by simpa [Frame.decoded] using hop1)]
      rw [if_neg (by simpa [Frame.decoded] using hop2)]
    · by_cases hpub : F.decoded.opcode = OP_PUBLISH
      · rw [if_pos hpub]
        rw [if_neg (by rintro ⟨h1, _⟩; exact hop1 h1)]
      · rw [if_neg hpub]
        rw [if_neg (by simpa [Frame.decoded] using hop2)]
  have hfuel : c.recvBuffer.length + 1 = (HEADER_SIZE + F.payload.length) + 1 := by
    rw [hbuf, Frame.encode_length]
  unfold processClientBuffer
  simp only [hc]
  rw [hfuel]
  simp only [processClientBufferGo, hc, if_neg hstH, hr]
  simp only [Bool.false_eq_true, if_false]
  rw [hb1]
  have hc2 : getClient (updateClient b fd (fun c0 =>
      { c0 with recvBuffer := c0.recvBuffer.drop (HEADER_SIZE + F.payload.length) })) fd
      = some { c with recvBuffer := [] } := by
    rw [getClient_updateClient_self, hc]
    simp only [Option.map]
    have : c.recvBuffer.drop (HEADER_SIZE + F.payload.length) = [] := by
      rw [hbuf]
      apply List.drop_eq_nil_of_le
      rw [Frame.encode_length]
    rw [this]
  rw [processClientBufferGo_empty ts (HEADER_SIZE + F.payload.length)
    (by simp [HEADER_SIZE]) _ fd { c with recvBuffer := [] } hc2 (by simp [hst]) rfl]
  exact ⟨rfl, hc2⟩

open Proto TcpBroker in
/-- C7 counterexample: a SUBSCRIBE frame for channel 5 from a READY
subscriber neither sets the client's channel bit nor adds it to the channel's
subscriber list, and a PING frame from a READY client enqueues no PONG —
contrary to the claim that these opcodes are accepted. -/
theorem c7_counterexample :
    ((getClient (processClientBuffer
        { clients := [(1, { type := ClientType.SUBSCRIBER, state := ClientState.READY, channels := 0, recvBuffer := [254, 202, 17, 1, 0, 0, 0, 5], sendQueue := [], sendInProgress := false, clientId := [] })],
          channelSubscribers := [], sessionIdCounter := 1 } 1 0) 1).map
        (fun c => c.channels.testBit 5) = some false ∧
      subsOf (processClientBuffer
        { clients := [(1, { type := ClientType.SUBSCRIBER, state := ClientState.READY, channels := 0, recvBuffer := [254, 202, 17, 1, 0, 0, 0, 5], sendQueue := [], sendInProgress := false, clientId := [] })],
          channelSubscribers := [], sessionIdCounter := 1 } 1 0) 5 = []) ∧
    (getClient (processClientBuffer
        { clients := [(1, { type := ClientType.SUBSCRIBER, state := ClientState.READY, channels := 0, recvBuffer := [254, 202, 32, 0, 0, 0, 0], sendQueue := [], sendInProgress := false, clientId := [] })],
          channelSubscribers := [], sessionIdCounter := 1 } 1 0) 1).map
        Client.sendQueue = some [] := by
  exact ⟨⟨by decide, by decide⟩, by decide⟩

open Proto TcpBroker in
/-- C7 witness: a READY client receiving a PING frame keeps every broker
structure unchanged except for consuming the frame. -/
theorem c7_ready_ignores_other_opcodes_witness :
    getClient (processClientBuffer
      { clients := [(1, { type := ClientType.SUBSCRIBER, state := ClientState.READY, channels := 0, recvBuffer := [254, 202, 32, 0, 0, 0, 0], sendQueue := [], sendInProgress := false, clientId := [] })],
        channelSubscribers := [], sessionIdCounter := 1 } 1 0) 1
      = some { type := ClientType.SUBSCRIBER, state := ClientState.READY, channels := 0, recvBuffer := [], sendQueue := [], sendInProgress := false, clientId := [] } :=
  (c7_ready_ignores_other_opcodes
      { clients := [(1, { type := ClientType.SUBSCRIBER, state := ClientState.READY, channels := 0, recvBuffer := [254, 202, 32, 0, 0, 0, 0], sendQueue := [], sendInProgress := false, clientId := [] })],
        channelSubscribers := [], sessionIdCounter := 1 } 1 0
      { type := ClientType.SUBSCRIBER, state := ClientState.READY, channels := 0, recvBuffer := [254, 202, 32, 0, 0, 0, 0], sendQueue := [], sendInProgress := false, clientId := [] }
      Frame.ping (by decide) (by decide) (by decide) (by decide)
      ⟨Or.inl (by decide), by decide⟩).2

namespace TcpBroker

open Proto

theorem getClient_enqueueMessage_ne (b : Broker) (fd fd' : Nat) (msg : List Nat)
    (h : fd' ≠ fd) : getClient (enqueueMessage b fd msg) fd' = getClient b fd' := by
  unfold enqueueMessage
  cases hg : getClient b fd
  · rfl
  · dsimp only []
    split
    · rfl
    · split
      · rfl
      · exact getClient_updateClient_ne _ _ _ _ h

/-- The fan-out fold of `routeMessage` never touches the sender's record. -/
theorem getClient_routeFold_sender (l : List Nat) (b : Broker) (senderFd : Nat)
    (msg : List Nat) :
    getClient (l.foldl
      (fun acc subFd => if subFd = senderFd then acc else enqueueMessage acc subFd msg) b)
      senderFd = getClient b senderFd := by
  induction l generalizing b with
  | nil => rfl
  | cons a t ih =>
    simp only [List.foldl_cons]
    by_cases ha : a = senderFd
    · rw [if_pos ha, ih]
    · rw [if_neg ha, ih, getClient_enqueueMessage_ne _ _ _ _ (fun h => ha h.symm)]

/-- The fan-out fold leaves clients outside the list unchanged. -/
theorem getClient_routeFold_not_mem (l : List Nat) (b : Broker) (senderFd target : Nat)
    (msg : List Nat) (hmem : target ∉ l) :
    getClient (l.foldl
      (fun acc subFd => if subFd = senderFd then acc else enqueueMessage acc subFd msg) b)
      target = getClient b target := by
  induction l generalizing b with
  | nil => rfl
  | cons a t ih =>
    simp only [List.foldl_cons]
    have hat : target ≠ a := fun h => hmem (h ▸ List.mem_cons_self a t)
    have hmem' : target ∉ t := fun h => hmem (List.mem_cons_of_mem a h)
    by_cases ha : a = senderFd
    · rw [if_pos ha, ih _ hmem']
    · rw [if_neg ha, ih _ hmem', getClient_enqueueMessage_ne _ _ _ _ hat]

/-- Every non-sender READY subscriber in the fan-out list (appearing once)
has the routed frame appended to its queue. -/
theorem getClient_routeFold_target (l : List Nat) (b : Broker) (senderFd target : Nat)
    (msg : List Nat) (ct : Client)
    (hmem : target ∈ l) (hnodup : l.Nodup) (hne : target ≠ senderFd)
    (hct : getClient b target = some ct) (hcts : ct.state = .READY)
    (hq : ct.sendQueue.length < MAX_SEND_QUEUE) :
    getClient (l.foldl
      (fun acc subFd => if subFd = senderFd then acc else enqueueMessage acc subFd msg) b)
      target = some { ct with sendQueue := ct.sendQueue ++ [msg], sendInProgress := true } := by
  induction l generalizing b ct with
  | nil => cases hmem
  | cons a t ih =>
    simp only [List.foldl_cons]
    rcases List.mem_cons.mp hmem with h | h
    · subst h
      have hnott : target ∉ t := (List.nodup_cons.mp hnodup).1
      rw [if_neg hne]
      rw [getClient_routeFold_not_mem _ _ _ _ _ hnott]
      rw [enqueueMessage_ready _ _ _ _ hct hcts hq]
      rw [getClient_updateClient_self, hct]
      rfl
    · have hat : target ≠ a := by
        rintro rfl
        exact (List.nodup_cons.mp hnodup).1 h
      by_cases ha : a = senderFd
      · rw [if_pos ha]
        exact ih _ _ h (List.nodup_cons.mp hnodup).2 hct hcts hq
      · rw [if_neg ha]
        have hct' : getClient (enqueueMessage b a msg) target = some ct := by
          rw [getClient_enqueueMessage_ne _ _ _ _ hat, hct]
        exact ih _ _ h (List.nodup_cons.mp hnodup).2 hct' hcts hq

theorem subsOf_updateClient (b : Broker) (fd : Nat) (f : Client → Client) (ch : Nat) :
    subsOf (updateClient b fd f) ch = subsOf b ch := rfl

/-- Draining one complete PUBLISH frame from a non-HANDSHAKE publisher routes
it and consumes its bytes, whatever the client's own channel mask or state
(READY or CLOSING) is. -/
theorem processClientBufferGo_publish (ts n : Nat) (b : Broker) (fd ch : Nat)
    (data : List Nat) (c : Client)
    (hn : (Frame.publish ch data).encode.length < n)
    (hc : getClient b fd = some c) (hst : ¬ c.state = ClientState.HANDSHAKE)
    (htype : c.type = ClientType.PUBLISHER)
    (hbuf : c.recvBuffer = (Frame.publish ch data).encode)
    (hwf : (Frame.publish ch data).wf) :
    processClientBufferGo ts n b fd =
      updateClient (routeMessage b (ch % 256) data fd ts) fd (fun c0 =>
        { c0 with recvBuffer := c0.recvBuffer.drop (HEADER_SIZE + (1 + data.length)) }) := by
  obtain ⟨k, rfl⟩ : ∃ k, n = k + 1 := ⟨n - 1, by omega⟩
  have hr : MessageDecoder.decode c.recvBuffer =
      { needMoreData := false, bytesConsumed := HEADER_SIZE + (1 + data.length),
        message := some (Frame.publish ch data).decoded } := by
    rw [hbuf]
    have h1 := decode_encode_append (Frame.publish ch data) [] hwf
    rw [List.append_nil] at h1
    rw [h1]
    simp [Frame.payload, Nat.add_comm]
  have hchan : (Frame.publish ch data).decoded.payload.getD 0 0 % 256 = ch % 256 := by
    simp [Frame.decoded, Frame.payload]
  have hdata : (Frame.publish ch data).decoded.payload.drop 1 = data := rfl
  have hop1 : (Frame.publish ch data).decoded.opcode = OP_PUBLISH := rfl
  have hlenp : 1 ≤ (Frame.publish ch data).decoded.payloadLen := by
    simp [Frame.decoded, Frame.payload]
  simp only [processClientBufferGo, hc, if_neg hst, hr]
  simp only [Bool.false_eq_true, if_false]
  rw [if_pos hop1]
  rw [if_pos ⟨htype, hlenp⟩]
  rw [hchan, hdata]
  have hroute_fd : getClient (routeMessage b (ch % 256) data fd ts) fd = some c := by
    unfold routeMessage
    rw [getClient_routeFold_sender, hc]
  have hc2 : getClient (updateClient (routeMessage b (ch % 256) data fd ts) fd (fun c0 =>
      { c0 with recvBuffer := c0.recvBuffer.drop (HEADER_SIZE + (1 + data.length)) })) fd
      = some { c with recvBuffer := [] } := by
    rw [getClient_updateClient_self, hroute_fd]
    simp only [Option.map]
    have : c.recvBuffer.drop (HEADER_SIZE + (1 + data.length)) = [] := by
      rw [hbuf]
      apply List.drop_eq_nil_of_le
      rw [Frame.encode_length]
      simp only [Frame.payload, List.length_append, List.length_cons, List.length_nil]
      omega
    rw [this]
  rw [processClientBufferGo_empty ts k
    (by rw [Frame.encode_length] at hn; simp only [HEADER_SIZE] at hn; omega) _ fd
    { c with recvBuffer := [] }
    hc2 (by simpa using hst) rfl]

end TcpBroker

open Proto TcpBroker in
/-- C8 (amended): the TCP drain loop does NOT stop when a frame puts the
client into CLOSING: a PUBLISH that sits after the DISCONNECT in the same
receive buffer is still decoded and routed to the channel's subscribers.
The CLOSING state is consulted only after the drain (to remove the client
instead of resubmitting a receive). -/
theorem c8_drain_continues_after_closing (b : TcpBroker.Broker) (fd ts ch target : Nat)
    (data : List Nat) (c ct : TcpBroker.Client)
    (hc : getClient b fd = some c) (hst : c.state = .READY)
    (htype : c.type = ClientType.PUBLISHER)
    (hbuf : c.recvBuffer = Frame.disconnect.encode ++ (Frame.publish ch data).encode)
    (hwf : (Frame.publish ch data).wf)
    (htgt : target ∈ subsOf b (ch % 256)) (hnodup : (subsOf b (ch % 256)).Nodup)
    (hne : target ≠ fd)
    (hct : getClient b target = some ct) (hcts : ct.state = .READY)
    (hq : ct.sendQueue.length < MAX_SEND_QUEUE) :
    (getClient (processClientBuffer b fd ts) fd).map Client.state
        = some ClientState.CLOSING ∧
    getClient (processClientBuffer b fd ts) target = some
      { ct with sendQueue := ct.sendQueue ++ [MessageEncoder.encodeMessage (ch % 256) ts data], sendInProgress := true } := by
  have hstH : ¬ c.state = ClientState.HANDSHAKE := by rw [hst]; decide
  have hrdisc : MessageDecoder.decode c.recvBuffer =
      { needMoreData := false,
        bytesConsumed := HEADER_SIZE + (Frame.disconnect.payload).length,
        message := some Frame.disconnect.decoded } := by
    rw [hbuf]
    exact decode_encode_append Frame.disconnect _ (by decide)
  unfold processClientBuffer
  simp only [hc]
  simp only [processClientBufferGo, hc, if_neg hstH, hrdisc, Bool.false_eq_true, if_false]
  rw [if_neg (by decide), if_pos (by decide : Frame.disconnect.decoded.opcode = OP_DISCONNECT)]
  have hc2 : getClient (updateClient (updateClient b fd (fun c0 =>
      { c0 with state := .CLOSING })) fd (fun c0 =>
        { c0 with recvBuffer := c0.recvBuffer.drop (HEADER_SIZE + (Frame.disconnect.payload).length) })) fd
      = some { c with state := ClientState.CLOSING, recvBuffer := (Frame.publish ch data).encode } := by
    rw [getClient_updateClient_self, getClient_updateClient_self, hc]
    simp only [Option.map]
    have hX : HEADER_SIZE + (Frame.disconnect.payload).length
        = Frame.disconnect.encode.length := by decide
    have : c.recvBuffer.drop (HEADER_SIZE + (Frame.disconnect.payload).length)
        = (Frame.publish ch data).encode := by
      rw [hbuf, hX, List.drop_left]
    rw [this]
  have hn : (Frame.publish ch data).encode.length < c.recvBuffer.length := by
    rw [hbuf]
    simp [List.length_append]
    decide
  rw [processClientBufferGo_publish ts c.recvBuffer.length _ fd ch data
    { c with state := ClientState.CLOSING, recvBuffer := (Frame.publish ch data).encode }
    hn hc2 (by simp) (by simpa using htype) rfl hwf]
  constructor
  · rw [getClient_updateClient_self]
    have hfd : getClient (routeMessage (updateClient (updateClient b fd (fun c0 =>
        { c0 with state := .CLOSING })) fd (fun c0 =>
          { c0 with recvBuffer := c0.recvBuffer.drop (HEADER_SIZE + (Frame.disconnect.payload).length) }))
        (ch % 256) data fd ts) fd
        = some { c with state := ClientState.CLOSING, recvBuffer := (Frame.publish ch data).encode } := by
      unfold routeMessage
      rw [getClient_routeFold_sender]
      exact hc2
    rw [hfd]
    rfl
  · rw [getClient_updateClient_ne _ _ _ _ hne]
    unfold routeMessage
    have hct2 : getClient (updateClient (updateClient b fd (fun c0 =>
        { c0 with state := .CLOSING })) fd (fun c0 =>
          { c0 with recvBuffer := c0.recvBuffer.drop (HEADER_SIZE + (Frame.disconnect.payload).length) }))
        target = some ct := by
      rw [getClient_updateClient_ne _ _ _ _ hne, getClient_updateClient_ne _ _ _ _ hne]
      exact hct
    exact getClient_routeFold_target _ _ _ _ _ _ htgt hnodup hne hct2 hcts hq

open Proto TcpBroker in
/-- C8 counterexample: a receive buffer holding DISCONNECT followed by
PUBLISH(channel 5, "hi") from a READY publisher.  The DISCONNECT puts the
client into CLOSING, yet the PUBLISH after it in the same buffer is still
dispatched: the subscriber's send queue receives the MESSAGE frame. -/
theorem c8_counterexample :
    (getClient (processClientBuffer
        { clients := [(1, { type := ClientType.PUBLISHER, state := ClientState.READY, channels := 0, recvBuffer := [254, 202, 4, 0, 0, 0, 0, 254, 202, 16, 3, 0, 0, 0, 5, 104, 105], sendQueue := [], sendInProgress := false, clientId := [] }), (2, { type := ClientType.SUBSCRIBER, state := ClientState.READY, channels := 32, recvBuffer := [], sendQueue := [], sendInProgress := false, clientId := [] })],
          channelSubscribers := [(5, [2])], sessionIdCounter := 3 } 1 1000) 1).map
        Client.state = some ClientState.CLOSING ∧
    (getClient (processClientBuffer
        { clients := [(1, { type := ClientType.PUBLISHER, state := ClientState.READY, channels := 0, recvBuffer := [254, 202, 4, 0, 0, 0, 0, 254, 202, 16, 3, 0, 0, 0, 5, 104, 105], sendQueue := [], sendInProgress := false, clientId := [] }), (2, { type := ClientType.SUBSCRIBER, state := ClientState.READY, channels := 32, recvBuffer := [], sendQueue := [], sendInProgress := false, clientId := [] })],
          channelSubscribers := [(5, [2])], sessionIdCounter := 3 } 1 1000) 2).map
        Client.sendQueue = some [MessageEncoder.encodeMessage 5 1000 [104, 105]] := by
  exact ⟨by decide, by decide⟩

open Proto TcpBroker in
/-- C8 witness: the amended drain theorem applied at the concrete
DISCONNECT-then-PUBLISH scenario. -/
theorem c8_drain_continues_after_closing_witness :
    (getClient (processClientBuffer
        { clients := [(1, { type := ClientType.PUBLISHER, state := ClientState.READY, channels := 0, recvBuffer := [254, 202, 4, 0, 0, 0, 0, 254, 202, 16, 3, 0, 0, 0, 6, 104, 105], sendQueue := [], sendInProgress := false, clientId := [] }), (2, { type := ClientType.SUBSCRIBER, state := ClientState.READY, channels := 64, recvBuffer := [], sendQueue := [], sendInProgress := false, clientId := [] })],
          channelSubscribers := [(6, [2])], sessionIdCounter := 3 } 1 1000) 1).map
        Client.state = some ClientState.CLOSING ∧
    getClient (processClientBuffer
        { clients := [(1, { type := ClientType.PUBLISHER, state := ClientState.READY, channels := 0, recvBuffer := [254, 202, 4, 0, 0, 0, 0, 254, 202, 16, 3, 0, 0, 0, 6, 104, 105], sendQueue := [], sendInProgress := false, clientId := [] }), (2, { type := ClientType.SUBSCRIBER, state := ClientState.READY, channels := 64, recvBuffer := [], sendQueue := [], sendInProgress := false, clientId := [] })],
          channelSubscribers := [(6, [2])], sessionIdCounter := 3 } 1 1000) 2 = some
      { type := ClientType.SUBSCRIBER, state := ClientState.READY, channels := 64, recvBuffer := [], sendQueue := [MessageEncoder.encodeMessage (6 % 256) 1000 [104, 105]], sendInProgress := true, clientId := [] } :=
  c8_drain_continues_after_closing
    { clients := [(1, { type := ClientType.PUBLISHER, state := ClientState.READY, channels := 0, recvBuffer := [254, 202, 4, 0, 0, 0, 0, 254, 202, 16, 3, 0, 0, 0, 6, 104, 105], sendQueue := [], sendInProgress := false, clientId := [] }), (2, { type := ClientType.SUBSCRIBER, state := ClientState.READY, channels := 64, recvBuffer := [], sendQueue := [], sendInProgress := false, clientId := [] })],
      channelSubscribers := [(6, [2])], sessionIdCounter := 3 } 1 1000 6 2 [104, 105]
    { type := ClientType.PUBLISHER, state := ClientState.READY, channels := 0, recvBuffer := [254, 202, 4, 0, 0, 0, 0, 254, 202, 16, 3, 0, 0, 0, 6, 104, 105], sendQueue := [], sendInProgress := false, clientId := [] }
    { type := ClientType.SUBSCRIBER, state := ClientState.READY, channels := 64, recvBuffer := [], sendQueue := [], sendInProgress := false, clientId := [] }
    (by decide) (by decide) (by decide) (by decide) (by decide) (by decide)
    (by decide) (by decide) (by decide) (by decide) (by decide)

namespace UdpBroker

open Proto

theorem getClient_processSendQueue (s : Broker) (a : Addr) :
    getClient (processSendQueue s) a = getClient s a := by
  unfold processSendQueue
  cases s.clients.find? (fun p => ¬ p.2.sendQueue.isEmpty)
  · rfl
  · unfold submitSend
    dsimp only []
    cases getClient s _
    · rfl
    · dsimp only []
      split
      · rfl
      · rfl

theorem getClient_updateClientU_self (b : Broker) (a : Addr) (f : Client → Client) :
    getClient (updateClient b a f) a = (getClient b a).map f :=
  assocGet_assocUpdate_self _ _ _

theorem getClient_updateClientU_ne (b : Broker) (a a' : Addr) (f : Client → Client)
    (h : a' ≠ a) : getClient (updateClient b a f) a' = getClient b a' :=
  assocGet_assocUpdate_ne _ _ _ _ h

theorem getClient_enqueueMessageU_ne (b : Broker) (a a' : Addr) (msg : List Nat)
    (h : a' ≠ a) : getClient (enqueueMessage b a msg) a' = getClient b a' := by
  unfold enqueueMessage
  cases hg : getClient b a
  · rfl
  · dsimp only []
    split
    · rfl
    · split
      · exact getClient_updateClientU_ne _ _ _ _ h
      · rw [getClient_processSendQueue]
        exact getClient_updateClientU_ne _ _ _ _ h

/-- UDP `enqueueMessage` appends to the target's queue (no connection-state
check exists for UDP clients). -/
theorem enqueueMessageU_target (b : Broker) (a : Addr) (msg : List Nat) (c : Client)
    (hc : getClient b a = some c) (hq : c.sendQueue.length < MAX_SEND_QUEUE) :
    getClient (enqueueMessage b a msg) a
      = some { c with sendQueue := c.sendQueue ++ [msg] } := by
  have hq' : ¬ (MAX_SEND_QUEUE ≤ c.sendQueue.length) := by omega
  unfold enqueueMessage
  simp only [hc, if_neg hq']
  have hupd : getClient (updateClient b a
      (fun c0 => { c0 with sendQueue := c0.sendQueue ++ [msg] })) a
      = some { c with sendQueue := c.sendQueue ++ [msg] } := by
    rw [getClient_updateClientU_self, hc]
    rfl
  split
  · exact hupd
  · rw [getClient_processSendQueue]
    exact hupd

theorem getClient_routeFoldU_sender (l : List Addr) (b : Broker) (senderAddr : Addr)
    (msg : List Nat) :
    getClient (l.foldl
      (fun acc subAddr => if subAddr = senderAddr then acc else enqueueMessage acc subAddr msg) b)
      senderAddr = getClient b senderAddr := by
  induction l generalizing b with
  | nil => rfl
  | cons a t ih =>
    simp only [List.foldl_cons]
    by_cases ha : a = senderAddr
    · rw [if_pos ha, ih]
    · rw [if_neg ha, ih, getClient_enqueueMessageU_ne _ _ _ _ (fun h => ha h.symm)]

theorem getClient_routeFoldU_not_mem (l : List Addr) (b : Broker) (senderAddr target : Addr)
    (msg : List Nat) (hmem : target ∉ l) :
    getClient (l.foldl
      (fun acc subAddr => if subAddr = senderAddr then acc else enqueueMessage acc subAddr msg) b)
      target = getClient b target := by
  induction l generalizing b with
  | nil => rfl
  | cons a t ih =>
    simp only [List.foldl_cons]
    have hat : target ≠ a := fun h => hmem (h ▸ List.mem_cons_self a t)
    have hmem' : target ∉ t := fun h => hmem (List.mem_cons_of_mem a h)
    by_cases ha : a = senderAddr
    · rw [if_pos ha, ih _ hmem']
    · rw [if_neg ha, ih _ hmem', getClient_enqueueMessageU_ne _ _ _ _ hat]

theorem getClient_routeFoldU_target (l : List Addr) (b : Broker) (senderAddr target : Addr)
    (msg : List Nat) (ct : Client)
    (hmem : target ∈ l) (hnodup : l.Nodup) (hne : target ≠ senderAddr)
    (hct : getClient b target = some ct)
    (hq : ct.sendQueue.length < MAX_SEND_QUEUE) :
    getClient (l.foldl
      (fun acc subAddr => if subAddr = senderAddr then acc else enqueueMessage acc subAddr msg) b)
      target = some { ct with sendQueue := ct.sendQueue ++ [msg] } := by
  induction l generalizing b ct with
  | nil => cases hmem
  | cons a t ih =>
    simp only [List.foldl_cons]
    rcases List.mem_cons.mp hmem with h | h
    · subst h
      have hnott : target ∉ t := (List.nodup_cons.mp hnodup).1
      rw [if_neg hne]
      rw [getClient_routeFoldU_not_mem _ _ _ _ _ hnott]
      exact enqueueMessageU_target _ _ _ _ hct hq
    · have hat : target ≠ a := by
        rintro rfl
        exact (List.nodup_cons.mp hnodup).1 h
      by_cases ha : a = senderAddr
      · rw [if_pos ha]
        exact ih _ _ h (List.nodup_cons.mp hnodup).2 hct hq
      · rw [if_neg ha]
        have hct' : getClient (enqueueMessage b a msg) target = some ct := by
          rw [getClient_enqueueMessageU_ne _ _ _ _ hat, hct]
        exact ih _ _ h (List.nodup_cons.mp hnodup).2 hct' hq

end UdpBroker

open Proto in
/-- C10: a READY publisher's PUBLISH frame is routed on the channel byte of
the frame itself, never checked against the channel declared in its
handshake: both brokers fan the MESSAGE out to every subscriber of that
channel whatever the publisher's own channel mask is (the mask is
universally quantified and unconstrained here), in the TCP broker and the
UDP broker alike. -/
theorem c10_publish_routing_unchecked :
    (∀ (b : TcpBroker.Broker) (fd ts ch target : Nat) (data : List Nat)
        (c ct : TcpBroker.Client),
      TcpBroker.getClient b fd = some c → c.state = .READY →
      c.type = TcpBroker.ClientType.PUBLISHER →
      c.recvBuffer = (Frame.publish ch data).encode → (Frame.publish ch data).wf →
      target ∈ TcpBroker.subsOf b (ch % 256) → (TcpBroker.subsOf b (ch % 256)).Nodup →
      target ≠ fd → TcpBroker.getClient b target = some ct → ct.state = .READY →
      ct.sendQueue.length < TcpBroker.MAX_SEND_QUEUE →
      TcpBroker.getClient (TcpBroker.processClientBuffer b fd ts) target = some
        { ct with sendQueue := ct.sendQueue ++ [MessageEncoder.encodeMessage (ch % 256) ts data], sendInProgress := true })
    ∧
    (∀ (ub : UdpBroker.Broker) (addr tgt : UdpBroker.Addr) (ts ch : Nat)
        (data : List Nat) (uc tc : UdpBroker.Client),
      UdpBroker.getClient ub addr = some uc →
      uc.type = UdpBroker.ClientType.PUBLISHER →
      (Frame.publish ch data).wf →
      tgt ∈ UdpBroker.subsOf ub (ch % 256) → (UdpBroker.subsOf ub (ch % 256)).Nodup →
      tgt ≠ addr → UdpBroker.getClient ub tgt = some tc →
      tc.sendQueue.length < UdpBroker.MAX_SEND_QUEUE →
      UdpBroker.getClient
          (UdpBroker.processMessage ub addr ((Frame.publish ch data).encode) ts) tgt
        = some { tc with sendQueue := tc.sendQueue ++ [MessageEncoder.encodeMessage (ch % 256) ts data] }) := by
  constructor
  · intro b fd ts ch target data c ct hc hst htype hbuf hwf htgt hnodup hne hct hcts hq
    unfold TcpBroker.processClientBuffer
    simp only [hc]
    rw [TcpBroker.processClientBufferGo_publish ts (c.recvBuffer.length + 1) b fd ch data c
      (by rw [hbuf]; omega) hc (by rw [hst]; decide) htype hbuf hwf]
    rw [TcpBroker.getClient_updateClient_ne _ _ _ _ hne]
    unfold TcpBroker.routeMessage
    exact TcpBroker.getClient_routeFold_target _ _ _ _ _ _ htgt hnodup hne hct hcts hq
  · intro ub addr tgt ts ch data uc tc hc htype hwf htgt hnodup hne hct hq
    have hr : MessageDecoder.decode ((Frame.publish ch data).encode) =
        { needMoreData := false, bytesConsumed := HEADER_SIZE + (1 + data.length),
          message := some (Frame.publish ch data).decoded } := by
      have h1 := decode_encode_append (Frame.publish ch data) [] hwf
      rw [List.append_nil] at h1
      rw [h1]
      simp [Frame.payload, Nat.add_comm]
    have hop1 : ¬ ((Frame.publish ch data).decoded.opcode = OP_HANDSHAKE_PUB
        ∨ (Frame.publish ch data).decoded.opcode = OP_HANDSHAKE_SUB) := by
      rintro (h | h) <;> simp [Frame.decoded, Frame.opcode, OP_PUBLISH,
        OP_HANDSHAKE_PUB, OP_HANDSHAKE_SUB] at h
    have hop2 : (Frame.publish ch data).decoded.opcode = OP_PUBLISH := rfl
    have hlenp : 1 ≤ (Frame.publish ch data).decoded.payloadLen := by
      simp [Frame.decoded, Frame.payload]
    have hchan : (Frame.publish ch data).decoded.payload.getD 0 0 % 256 = ch % 256 := by
      simp [Frame.decoded, Frame.payload]
    have hdata : (Frame.publish ch data).decoded.payload.drop 1 = data := rfl
    unfold UdpBroker.processMessage
    simp only [hr, Bool.false_eq_true, if_false]
    rw [if_neg hop1, if_pos hop2]
    simp only [hc]
    rw [if_pos ⟨htype, hlenp⟩]
    rw [hchan, hdata]
    unfold UdpBroker.routeMessage
    exact UdpBroker.getClient_routeFoldU_target _ _ _ _ _ _ htgt hnodup hne hct hq

open Proto in
/-- C10 witness: a publisher whose handshake set only channel 1 in its mask
publishes on channel 9; the channel-9 subscriber receives the MESSAGE in
both brokers. -/
theorem c10_publish_routing_unchecked_witness :
    TcpBroker.getClient (TcpBroker.processClientBuffer
      { clients := [(1, { type := TcpBroker.ClientType.PUBLISHER, state := TcpBroker.ClientState.READY, channels := 2, recvBuffer := (Frame.publish 9 [104]).encode, sendQueue := [], sendInProgress := false, clientId := [] }), (2, { type := TcpBroker.ClientType.SUBSCRIBER, state := TcpBroker.ClientState.READY, channels := 512, recvBuffer := [], sendQueue := [], sendInProgress := false, clientId := [] })],
        channelSubscribers := [(9, [2])], sessionIdCounter := 3 } 1 1000) 2 = some
      { type := TcpBroker.ClientType.SUBSCRIBER, state := TcpBroker.ClientState.READY, channels := 512, recvBuffer := [], sendQueue := [MessageEncoder.encodeMessage (9 % 256) 1000 [104]], sendInProgress := true, clientId := [] } ∧
    UdpBroker.getClient (UdpBroker.processMessage
      { clients := [((10, 1), { type := UdpBroker.ClientType.PUBLISHER, channels := 2, sendQueue := [], clientId := [] }), ((10, 2), { type := UdpBroker.ClientType.SUBSCRIBER, channels := 512, sendQueue := [], clientId := [] })],
        channelSubscribers := [(9, [(10, 2)])], sessionIdCounter := 3, sendInProgress := true, sendBuffer := [], sendAddr := (0, 0) } (10, 1) ((Frame.publish 9 [104]).encode) 1000) (10, 2) = some
      { type := UdpBroker.ClientType.SUBSCRIBER, channels := 512, sendQueue := [MessageEncoder.encodeMessage (9 % 256) 1000 [104]], clientId := [] } :=
  ⟨c10_publish_routing_unchecked.1
      { clients := [(1, { type := TcpBroker.ClientType.PUBLISHER, state := TcpBroker.ClientState.READY, channels := 2, recvBuffer := (Frame.publish 9 [104]).encode, sendQueue := [], sendInProgress := false, clientId := [] }), (2, { type := TcpBroker.ClientType.SUBSCRIBER, state := TcpBroker.ClientState.READY, channels := 512, recvBuffer := [], sendQueue := [], sendInProgress := false, clientId := [] })],
        channelSubscribers := [(9, [2])], sessionIdCounter := 3 } 1 1000 9 2 [104]
      { type := TcpBroker.ClientType.PUBLISHER, state := TcpBroker.ClientState.READY, channels := 2, recvBuffer := (Frame.publish 9 [104]).encode, sendQueue := [], sendInProgress := false, clientId := [] }
      { type := TcpBroker.ClientType.SUBSCRIBER, state := TcpBroker.ClientState.READY, channels := 512, recvBuffer := [], sendQueue := [], sendInProgress := false, clientId := [] }
      (by decide) (by decide) (by decide) rfl (by decide) (by decide) (by decide)
      (by decide) (by decide) (by decide) (by decide),
    c10_publish_routing_unchecked.2
      { clients := [((10, 1), { type := UdpBroker.ClientType.PUBLISHER, channels := 2, sendQueue := [], clientId := [] }), ((10, 2), { type := UdpBroker.ClientType.SUBSCRIBER, channels := 512, sendQueue := [], clientId := [] })],
        channelSubscribers := [(9, [(10, 2)])], sessionIdCounter := 3, sendInProgress := true, sendBuffer := [], sendAddr := (0, 0) } (10, 1) (10, 2) 1000 9 [104]
      { type := UdpBroker.ClientType.PUBLISHER, channels := 2, sendQueue := [], clientId := [] }
      { type := UdpBroker.ClientType.SUBSCRIBER, channels := 512, sendQueue := [], clientId := [] }
      (by decide) (by decide) (by decide) (by decide) (by decide) (by decide)
      (by decide) (by decide)⟩

namespace TcpSendModel

theorem TInv_init : TInv init := by
  constructor
  · rfl
  · intro h
    cases h

theorem TInv_enq (s : St) (msg : List Nat) (h : TInv s) : TInv (enq s msg) := by
  obtain ⟨h1, h2⟩ := h
  unfold enq
  by_cases hfull : 256 ≤ s.queue.length
  · rw [if_pos hfull]
    exact ⟨h1, h2⟩
  · rw [if_neg hfull]
    dsimp only []
    by_cases hp : s.sendInProgress
    · rw [if_pos hp]
      refine ⟨?_, ?_⟩
      · rw [← List.append_assoc, h1]
      · intro _
        obtain ⟨hne, hbuf⟩ := h2 hp
        constructor
        · simp
        · obtain ⟨a, t, hq⟩ : ∃ a t, s.queue = a :: t := by
            cases hq : s.queue
            · exact absurd hq hne
            · exact ⟨_, _, rfl⟩
          show s.sendBuf = (s.queue ++ [msg]).headD []
          rw [hbuf, hq]
          simp
    · rw [if_neg hp]
      refine ⟨?_, ?_⟩
      · rw [← List.append_assoc, h1]
      · intro _
        constructor
        · simp
        · rfl

theorem TInv_complete (s : St) (h : TInv s) : TInv (complete s) := by
  obtain ⟨h1, h2⟩ := h
  unfold complete
  by_cases hp : s.sendInProgress
  · rw [if_neg (by simp [hp])]
    obtain ⟨hne, hbuf⟩ := h2 hp
    obtain ⟨a, t, hq⟩ : ∃ a t, s.queue = a :: t := by
      cases hq : s.queue
      · exact absurd hq hne
      · exact ⟨_, _, rfl⟩
    dsimp only []
    by_cases hemp : (s.queue.tail).isEmpty
    · rw [if_pos hemp]
      refine ⟨?_, ?_⟩
      · rw [hq] at h1 ⊢
        rw [hbuf, hq]
        simp only [List.headD_cons, List.tail_cons] at *
        rw [← h1]
        simp
      · intro hfalse
        cases hfalse
    · rw [if_neg hemp]
      refine ⟨?_, ?_⟩
      · rw [hq] at h1 ⊢
        rw [hbuf, hq]
        simp only [List.headD_cons, List.tail_cons] at *
        rw [← h1]
        simp
      · intro _
        constructor
        · rw [hq]
          rw [hq] at hemp
          simp only [List.tail_cons] at *
          simpa [List.isEmpty_iff] using hemp
        · rfl
  · rw [if_pos (by simp [hp])]
    exact ⟨h1, h2⟩

theorem TInv_run (evs : List Ev) (s : St) (h : TInv s) : TInv (run evs s) := by
  induction evs generalizing s with
  | nil => exact h
  | cons e t ih =>
    unfold run
    simp only [List.foldl_cons]
    apply ih
    cases e with
    | enq msg => exact TInv_enq s msg h
    | complete => exact TInv_complete s h

end TcpSendModel

theorem assocGet_mem_nodup {α β : Type} [DecidableEq α] (l : List (α × β)) (p : α × β)
    (hnd : (l.map Prod.fst).Nodup) (hp : p ∈ l) : assocGet l p.1 = some p.2 := by
  induction l with
  | nil => cases hp
  | cons q t ih =>
    rcases List.mem_cons.mp hp with h | h
    · subst h
      simp [assocGet, List.find?]
    · have hq : ¬ q.1 = p.1 := by
        intro he
        have : p.1 ∈ t.map Prod.fst := List.mem_map.mpr ⟨p, h, rfl⟩
        rw [← he] at this
        exact (List.nodup_cons.mp hnd).1 this
      simp only [assocGet]
      rw [List.find?_cons_of_neg _ (by simp [hq])]
      exact ih (List.nodup_cons.mp hnd).2 h

theorem assocGet_some_mem {α β : Type} [DecidableEq α] (l : List (α × β)) (a : α) (c : β)
    (h : assocGet l a = some c) : ∃ p ∈ l, p.2 = c := by
  unfold assocGet at h
  cases hf : l.find? (fun p => decide (p.1 = a)) with
  | none => rw [hf] at h; cases h
  | some q =>
    rw [hf] at h
    exact ⟨q, List.mem_of_find?_eq_some hf, by simpa using h⟩

theorem get?_of_drop_ne_nil {α : Type} (l : List α) (n : Nat) (d : α)
    (h : l.drop n ≠ []) : l.get? n = some ((l.drop n).headD d) := by
  induction n generalizing l with
  | zero =>
    cases l with
    | nil => simp at h
    | cons a t => rfl
  | succ k ih =>
    cases l with
    | nil => simp at h
    | cons a t =>
      simp only [List.drop_succ_cons] at h ⊢
      exact ih t h

namespace UdpSendModel

open UdpBroker (Addr)

theorem keys_assocUpdate {α β : Type} [DecidableEq α] (l : List (α × β)) (k : α)
    (f : β → β) : (assocUpdate l k f).map Prod.fst = l.map Prod.fst := by
  unfold assocUpdate
  rw [List.map_map]
  congr 1
  funext p
  by_cases h : p.1 = k
  · simp [h]
  · simp [h]

theorem keys_popFirstMatching (l : List (Addr × Cl)) (buf : List Nat) :
    (popFirstMatching l buf).map Prod.fst = l.map Prod.fst := by
  induction l with
  | nil => rfl
  | cons p t ih =>
    unfold popFirstMatching
    split
    · simp
    · simp [ih]

theorem UInv_submitSend (s : St) (a : Addr) (h : UInv s) : UInv (submitSend s a) := by
  obtain ⟨hnd, hmem⟩ := h
  unfold submitSend
  cases hg : assocGet s.clients a with
  | none => exact ⟨hnd, hmem⟩
  | some c =>
    dsimp only []
    by_cases hemp : c.queue = []
    · rw [if_pos hemp]
      exact ⟨hnd, hmem⟩
    · rw [if_neg hemp]
      refine ⟨by rw [keys_assocUpdate]; exact hnd, ?_⟩
      intro p hp
      obtain ⟨q, hq, hpq⟩ := List.mem_map.mp hp
      by_cases hk : q.1 = a
      · have hq2 : q.2 = c := by
          have hgq := assocGet_mem_nodup s.clients q hnd hq
          rw [hk, hg] at hgq
          simpa using hgq.symm
        rw [← hpq]
        simp only [if_pos hk]
        obtain ⟨h1, h2, h3⟩ := hmem q hq
        have hne : q.2.accepted.drop q.2.popped ≠ [] := by
          rw [hq2]; exact hemp
        refine ⟨h1, ?_, ?_⟩
        · intro p2 hp2
          simp only [] at hp2
          rcases List.mem_append.mp hp2 with hin | hin
          · exact h2 p2 hin
          · rw [List.mem_singleton.mp hin]
            refine ⟨le_refl _, ?_⟩
            have hgd := get?_of_drop_ne_nil q.2.accepted q.2.popped [] hne
            simpa [Cl.queue] using hgd
        · simp only []
          rw [List.pairwise_append]
          refine ⟨h3, List.pairwise_singleton _ _, ?_⟩
          intro p1 hp1 p2 hp2
          rw [List.mem_singleton.mp hp2]
          exact (h2 p1 hp1).1
      · rw [← hpq]
        simp only [if_neg hk]
        exact hmem q hq

theorem UInv_processSendQueue (s : St) (h : UInv s) : UInv (processSendQueue s) := by
  unfold processSendQueue
  cases s.clients.find? (fun p => ¬ p.2.queue.isEmpty)
  · exact h
  · exact UInv_submitSend _ _ h

theorem UInv_enq (s : St) (a : Addr) (msg : List Nat) (h : UInv s) : UInv (enq s a msg) := by
  obtain ⟨hnd, hmem⟩ := h
  unfold enq
  cases hg : assocGet s.clients a with
  | none => exact ⟨hnd, hmem⟩
  | some c =>
    dsimp only []
    by_cases hfull : 256 ≤ c.queue.length
    · rw [if_pos hfull]
      exact ⟨hnd, hmem⟩
    · rw [if_neg hfull]
      have hinv1 : UInv { s with clients := (assocUpdate s.clients a
          (fun c0 => { c0 with accepted := c0.accepted ++ [msg] })) } := by
        refine ⟨by rw [keys_assocUpdate]; exact hnd, ?_⟩
        intro p hp
        obtain ⟨q, hq, hpq⟩ := List.mem_map.mp hp
        obtain ⟨h1, h2, h3⟩ := hmem q hq
        by_cases hk : q.1 = a
        · rw [← hpq]
          simp only [if_pos hk]
          refine ⟨by simp; omega, ?_, by simpa using h3⟩
          intro p2 hp2
          obtain ⟨g1, g2⟩ := h2 p2 hp2
          refine ⟨g1, ?_⟩
          obtain ⟨hl, _⟩ := List.get?_eq_some.mp g2
          simp only []
          rw [List.get?_append hl]
          exact g2
        · rw [← hpq]
          simp only [if_neg hk]
          exact hmem q hq
      split
      · exact hinv1
      · exact UInv_processSendQueue _ hinv1

end UdpSendModel

namespace UdpSendModel

theorem UCInv_pop (c : Cl) (h : UCInv c) (hne : ¬ c.queue.isEmpty = true) :
    UCInv { c with popped := c.popped + 1 } := by
  obtain ⟨h1, h2, h3⟩ := h
  have hlt : c.popped < c.accepted.length := by
    by_contra hle
    have hq : c.queue = [] := List.drop_eq_nil_of_le (by omega)
    simp [hq] at hne
  refine ⟨by simp; omega, ?_, by simpa using h3⟩
  intro p hp
  obtain ⟨g1, g2⟩ := h2 p hp
  exact ⟨by simp; omega, g2⟩

theorem mem_popFirstMatching (l : List (UdpBroker.Addr × Cl)) (buf : List Nat)
    (q : UdpBroker.Addr × Cl) (hq : q ∈ popFirstMatching l buf) :
    q ∈ l ∨ ∃ p ∈ l, ¬ p.2.queue.isEmpty = true ∧
      q = (p.1, { p.2 with popped := p.2.popped + 1 }) := by
  induction l with
  | nil => cases hq
  | cons p t ih =>
    unfold popFirstMatching at hq
    split at hq
    · rename_i hc
      rcases List.mem_cons.mp hq with h | h
      · exact Or.inr ⟨p, List.mem_cons_self _ _, hc.1, h⟩
      · exact Or.inl (List.mem_cons_of_mem _ h)
    · rcases List.mem_cons.mp hq with h | h
      · exact Or.inl (h ▸ List.mem_cons_self _ _)
      · rcases ih h with h2 | ⟨p2, hp2, hc2, he⟩
        · exact Or.inl (List.mem_cons_of_mem _ h2)
        · exact Or.inr ⟨p2, List.mem_cons_of_mem _ hp2, hc2, he⟩

theorem UInv_complete (s : St) (h : UInv s) : UInv (complete s) := by
  obtain ⟨hnd, hmem⟩ := h
  unfold complete
  dsimp only []
  apply UInv_processSendQueue
  refine ⟨?_, ?_⟩
  · simpa [keys_popFirstMatching] using hnd
  · intro p hp
    simp only [] at hp
    rcases mem_popFirstMatching _ _ _ hp with h1 | ⟨p2, hp2, hc2, he⟩
    · exact hmem p h1
    · rw [he]
      exact UCInv_pop _ (hmem p2 hp2) hc2

theorem UInv_init (addrs : List UdpBroker.Addr) (hnd : addrs.Nodup) : UInv (init addrs) := by
  refine ⟨?_, ?_⟩
  · unfold init
    simp only []
    rw [List.map_map]
    have hid : (Prod.fst ∘ fun a : UdpBroker.Addr =>
        (a, ({ accepted := [], popped := 0, delivered := [] } : Cl))) = id := rfl
    rw [hid, List.map_id]
    exact hnd
  · intro p hp
    simp only [init, List.mem_map] at hp
    obtain ⟨a, ha, rfl⟩ := hp
    exact ⟨Nat.le_refl 0, fun q hq => absurd hq (List.not_mem_nil q), List.Pairwise.nil⟩

theorem UInv_step (s : St) (e : Ev) (h : UInv s) : UInv (step s e) := by
  cases e with
  | enq a m => exact UInv_enq s a m h
  | complete => exact UInv_complete s h

theorem UInv_run (evs : List Ev) (s : St) (h : UInv s) : UInv (run evs s) := by
  induction evs generalizing s with
  | nil => exact h
  | cons e t ih => exact ih (step s e) (UInv_step s e h)

end UdpSendModel

/-- C2 counterexample: in the UDP broker, after the trace `c2Evs`, subscriber
`(1,1)` has had three MESSAGE frames routed to it (`c2X` twice, then `c2Z`)
but the frames actually staged for sending to it are the ones at indices 0
and 2 only: the second routed PUBLISH frame is never delivered to it even
though the third one is, because `Broker::handleSend` pops the first queue in
map order whose front happens to be byte-identical to the completed send
buffer, which here is `(1,1)`'s queue while the completed send was for
`(2,2)`.  So "S receives the encoded MESSAGE for P1 strictly before the
MESSAGE for P2" fails for S = `(1,1)`, P1 = publish 2, P2 = publish 3. -/
theorem c2_counterexample :
    (assocGet (UdpSendModel.run c2Evs (UdpSendModel.init [(1,1),(2,2)])).clients (1,1)).map
        (fun c => (c.accepted, c.delivered.map Prod.fst))
      = some ([c2X, c2X, c2Z], [0, 2]) := by decide

/-- C2 (amended): per-subscriber order preservation of the send machinery.
TCP: each client's frames sent so far, followed by its pending send queue, is
exactly the sequence of frames pushed to it, in order — so frames are sent
strictly in push order with none dropped or duplicated.  UDP: every frame
staged for sending to a client is the frame routed to it at the recorded
queue index, and those indices are nondecreasing along the trace — so two
routed PUBLISH frames are never delivered to a subscriber out of order;
however (see the counterexample) the UDP broker may drop or duplicate a
delivery when two clients' queue fronts are byte-identical, so "strictly
before" weakens to "never inverted". -/
theorem c2_send_order_preserved :
    (∀ evs : List TcpSendModel.Ev,
        (TcpSendModel.run evs TcpSendModel.init).sent
            ++ (TcpSendModel.run evs TcpSendModel.init).queue
          = (TcpSendModel.run evs TcpSendModel.init).pushed) ∧
    (∀ (addrs : List UdpBroker.Addr) (evs : List UdpSendModel.Ev)
        (a : UdpBroker.Addr) (c : UdpSendModel.Cl), addrs.Nodup →
        assocGet (UdpSendModel.run evs (UdpSendModel.init addrs)).clients a = some c →
        (∀ p ∈ c.delivered, c.accepted.get? p.1 = some p.2) ∧
        c.delivered.Pairwise (fun p q => p.1 ≤ q.1)) := by
  constructor
  · intro evs
    exact (TcpSendModel.TInv_run evs TcpSendModel.init TcpSendModel.TInv_init).1
  · intro addrs evs a c hnd hg
    have h := UdpSendModel.UInv_run evs (UdpSendModel.init addrs)
      (UdpSendModel.UInv_init addrs hnd)
    obtain ⟨p, hp, hp2⟩ := assocGet_some_mem _ _ _ hg
    have hc := h.2 p hp
    rw [hp2] at hc
    exact ⟨fun q hq => (hc.2.1 q hq).2, hc.2.2⟩

/-- Witness for C2: the amended theorem applied to the one-subscriber trace
that enqueues `[9]` and completes the send. -/
theorem c2_send_order_preserved_witness :
    ([((1 : Nat), (1 : Nat))].Nodup ∧
      assocGet (UdpSendModel.run [UdpSendModel.Ev.enq (1,1) [9], UdpSendModel.Ev.complete]
          (UdpSendModel.init [(1,1)])).clients (1,1)
        = some { accepted := [[9]], popped := 1, delivered := [(0, [9])] }) ∧
    ((∀ p ∈ [((0 : Nat), [(9 : Nat)])], [[9]].get? p.1 = some p.2) ∧
      List.Pairwise (fun p q => p.1 ≤ q.1) [((0 : Nat), [(9 : Nat)])]) :=
  ⟨⟨by decide, by decide⟩,
    c2_send_order_preserved.2 [(1,1)] [UdpSendModel.Ev.enq (1,1) [9], UdpSendModel.Ev.complete]
      (1,1) { accepted := [[9]], popped := 1, delivered := [(0, [9])] } (by decide) (by decide)⟩
